import Mathlib

/-!
# Verification of the `hidclient` event-translation pipeline

A shallow embedding of the core of `hidclient.c` (the neo-layout fork):
the per-event translator `parse_events`, its pressed-key bookkeeping,
modifier tracking, layer resolution, the remap table `chars`, the report
builders, and the slice of `main` that reacts to `parse_events` results.

Machine integers are modelled as `Nat` (with explicit masking where the C
code masks) and the 32-bit signed `input_event.value` as `Int`.  Socket
sends are modelled by an oracle list `List Bool` of send results (`true`
= `send` returned at least one byte); an empty oracle means every send
succeeds, matching `takeSend`.
-/

namespace Hidclient

/-- One raw `struct input_event`: `type`, `code` (both unsigned 16-bit)
and the signed 32-bit `value`. -/
structure Ev where
  type : Nat
  code : Nat
  value : Int
deriving DecidableEq, Repr

/-- Truncation of a signed 32-bit value to the wire byte written for a
`signed char` field (two's-complement low byte). -/
def byteOfInt (v : Int) : Nat := (v % 256).toNat

/-- One attempted `send` call: the bytes handed to `send` and whether the
call reported success (`j >= 1`). -/
structure Send where
  bytes : List Nat
  ok : Bool
deriving DecidableEq, Repr

/-- Control outcome of processing events inside `parse_events`:
`cont` = keep going (return 0), `disc` = `return -1` (abort connection),
`exited c` = the process called `exit(c)` from inside the translator. -/
inductive Ctl where
  | cont : Ctl
  | disc : Ctl
  | exited : Nat → Ctl
deriving DecidableEq, Repr

/-- The translator-visible global state of `hidclient.c`:
`mousebuttons`, `modifierkeys`, `pressedkey[8]`, the mute toggle `on`
and `connectionok`. -/
structure PState where
  mousebuttons : Nat
  modifierkeys : Nat
  pressedkey : List Nat
  /-- the C global `on` (`on` is reserved in Lean, hence the name) -/
  onFlag : Bool
  connectionok : Bool
deriving DecidableEq, Repr

/-- Result of processing one event (or an event list): the updated
state, the sends attempted (in order), the remaining send oracle, and
the control outcome. -/
structure StepRes where
  st : PState
  outs : List Send
  sr : List Bool
  ctl : Ctl
deriving DecidableEq, Repr

/-- Consume the next send result from the oracle; an exhausted oracle
yields success. -/
def takeSend : List Bool → Bool × List Bool
  | [] => (true, [])
  | b :: bs => (b, bs)

/-- The immutable remap table `chars[100][6][2]` from the source, row by
row: `chars[u][layer] = (outputModifier, outputKeyUsage)`. -/
def chars : List (List (Nat × Nat)) := [
  [(0x00, 0x00), (0x00, 0x00), (0x00, 0x00), (0x00, 0x00), (0x00, 0x00), (0x00, 0x00)],
  [(0x00, 0x00), (0x00, 0x00), (0x00, 0x00), (0x00, 0x00), (0x00, 0x00), (0x00, 0x00)],
  [(0x00, 0x00), (0x00, 0x00), (0x00, 0x00), (0x00, 0x00), (0x00, 0x00), (0x00, 0x00)],
  [(0x00, 0x00), (0x00, 0x00), (0x00, 0x00), (0x00, 0x00), (0x00, 0x00), (0x00, 0x00)],
  [(0x00, 0x18), (0x02, 0x18), (0x06, 0x24), (0x00, 0x4A), (0x00, 0x00), (0x00, 0x00)],
  [(0x00, 0x1C), (0x02, 0x1C), (0x00, 0x00), (0x00, 0x00), (0x00, 0x00), (0x00, 0x00)],
  [(0x00, 0x34), (0x02, 0x34), (0x04, 0x24), (0x00, 0x49), (0x00, 0x00), (0x00, 0x00)],
  [(0x00, 0x04), (0x02, 0x04), (0x04, 0x25), (0x00, 0x51), (0x00, 0x00), (0x00, 0x00)],
  [(0x00, 0x0F), (0x02, 0x0F), (0x04, 0x22), (0x00, 0x52), (0x00, 0x00), (0x00, 0x00)],
  [(0x00, 0x08), (0x02, 0x08), (0x04, 0x26), (0x00, 0x4F), (0x00, 0x00), (0x00, 0x00)],
  [(0x00, 0x12), (0x02, 0x12), (0x02, 0x30), (0x00, 0x4D), (0x00, 0x00), (0x00, 0x00)],
  [(0x00, 0x16), (0x02, 0x16), (0x02, 0x2D), (0x04, 0x2D), (0x00, 0x00), (0x00, 0x00)],
  [(0x00, 0x0A), (0x02, 0x0A), (0x02, 0x35), (0x00, 0x25), (0x00, 0x00), (0x00, 0x00)],
  [(0x00, 0x11), (0x02, 0x11), (0x02, 0x25), (0x00, 0x21), (0x00, 0x00), (0x00, 0x00)],
  [(0x00, 0x15), (0x02, 0x15), (0x02, 0x26), (0x00, 0x22), (0x00, 0x00), (0x00, 0x00)],
  [(0x00, 0x17), (0x02, 0x17), (0x00, 0x38), (0x00, 0x23), (0x00, 0x00), (0x00, 0x00)],
  [(0x00, 0x10), (0x02, 0x10), (0x02, 0x22), (0x00, 0x1E), (0x00, 0x00), (0x00, 0x00)],
  [(0x00, 0x05), (0x02, 0x05), (0x00, 0x30), (0x02, 0x37), (0x00, 0x00), (0x00, 0x00)],
  [(0x00, 0x09), (0x02, 0x09), (0x02, 0x27), (0x00, 0x26), (0x00, 0x00), (0x00, 0x00)],
  [(0x00, 0x14), (0x02, 0x14), (0x02, 0x23), (0x00, 0x30), (0x00, 0x00), (0x00, 0x00)],
  [(0x00, 0x1B), (0x02, 0x1B), (0x04, 0x37), (0x00, 0x4B), (0x00, 0x00), (0x00, 0x00)],
  [(0x00, 0x06), (0x02, 0x06), (0x04, 0x23), (0x00, 0x4C), (0x00, 0x00), (0x00, 0x00)],
  [(0x00, 0x0C), (0x02, 0x0C), (0x02, 0x24), (0x00, 0x50), (0x00, 0x00), (0x00, 0x00)],
  [(0x00, 0x1A), (0x02, 0x1A), (0x00, 0x00), (0x00, 0x4E), (0x00, 0x00), (0x00, 0x00)],
  [(0x00, 0x0B), (0x02, 0x0B), (0x00, 0x35), (0x00, 0x24), (0x00, 0x00), (0x00, 0x00)],
  [(0x00, 0x13), (0x02, 0x13), (0x04, 0x11), (0x00, 0x28), (0x00, 0x00), (0x00, 0x00)],
  [(0x00, 0x19), (0x02, 0x19), (0x02, 0x38), (0x00, 0x2A), (0x00, 0x00), (0x00, 0x00)],
  [(0x00, 0x33), (0x02, 0x33), (0x02, 0x21), (0x00, 0x2B), (0x00, 0x00), (0x00, 0x00)],
  [(0x00, 0x0E), (0x02, 0x0E), (0x02, 0x1E), (0x04, 0x1E), (0x00, 0x00), (0x00, 0x00)],
  [(0x00, 0x2F), (0x02, 0x2F), (0x00, 0x31), (0x00, 0x00), (0x00, 0x00), (0x00, 0x00)],
  [(0x00, 0x1E), (0x06, 0x2F), (0x00, 0x00), (0x00, 0x00), (0x00, 0x00), (0x00, 0x00)],
  [(0x00, 0x1F), (0x02, 0x20), (0x00, 0x00), (0x00, 0x00), (0x00, 0x00), (0x00, 0x00)],
  [(0x00, 0x20), (0x04, 0x07), (0x00, 0x00), (0x00, 0x00), (0x00, 0x00), (0x00, 0x00)],
  [(0x00, 0x21), (0x06, 0x14), (0x06, 0x11), (0x00, 0x00), (0x00, 0x00), (0x00, 0x00)],
  [(0x00, 0x22), (0x04, 0x14), (0x06, 0x05), (0x06, 0x26), (0x00, 0x00), (0x00, 0x00)],
  [(0x00, 0x23), (0x02, 0x21), (0x04, 0x21), (0x06, 0x21), (0x00, 0x00), (0x00, 0x00)],
  [(0x00, 0x24), (0x04, 0x08), (0x04, 0x1D), (0x00, 0x00), (0x00, 0x00), (0x00, 0x00)],
  [(0x00, 0x25), (0x06, 0x1A), (0x04, 0x16), (0x00, 0x2B), (0x00, 0x00), (0x00, 0x00)],
  [(0x00, 0x26), (0x04, 0x1F), (0x04, 0x31), (0x02, 0x24), (0x00, 0x00), (0x00, 0x00)],
  [(0x00, 0x27), (0x06, 0x1F), (0x00, 0x00), (0x02, 0x30), (0x00, 0x00), (0x00, 0x00)],
  [(0x00, 0x28), (0x02, 0x28), (0x00, 0x28), (0x04, 0x28), (0x00, 0x28), (0x00, 0x28)],
  [(0x00, 0x29), (0x00, 0x29), (0x00, 0x29), (0x00, 0x29), (0x00, 0x29), (0x00, 0x29)],
  [(0x00, 0x2A), (0x00, 0x2A), (0x00, 0x2A), (0x00, 0x2A), (0x00, 0x2A), (0x00, 0x2A)],
  [(0x00, 0x2B), (0x00, 0x00), (0x00, 0x00), (0x00, 0x00), (0x00, 0x00), (0x00, 0x00)],
  [(0x00, 0x2C), (0x02, 0x2C), (0x00, 0x2C), (0x04, 0x27), (0x00, 0x00), (0x00, 0x00)],
  [(0x00, 0x38), (0x06, 0x38), (0x00, 0x00), (0x00, 0x38), (0x00, 0x00), (0x00, 0x00)],
  [(0x02, 0x2E), (0x02, 0x00), (0x00, 0x00), (0x00, 0x00), (0x00, 0x00), (0x00, 0x00)],
  [(0x00, 0x2D), (0x00, 0x00), (0x00, 0x00), (0x04, 0x38), (0x00, 0x00), (0x00, 0x00)],
  [(0x00, 0x2E), (0x00, 0x00), (0x00, 0x00), (0x00, 0x00), (0x00, 0x00), (0x00, 0x00)],
  [(0x00, 0x00), (0x00, 0x00), (0x00, 0x00), (0x00, 0x00), (0x00, 0x00), (0x00, 0x00)],
  [(0x00, 0x00), (0x00, 0x00), (0x00, 0x00), (0x00, 0x00), (0x00, 0x00), (0x00, 0x00)],
  [(0x00, 0x07), (0x02, 0x07), (0x02, 0x37), (0x00, 0x36), (0x00, 0x00), (0x00, 0x00)],
  [(0x00, 0x1D), (0x02, 0x1D), (0x04, 0x0F), (0x00, 0x37), (0x00, 0x00), (0x00, 0x00)],
  [(0x06, 0x23), (0x00, 0x00), (0x00, 0x00), (0x00, 0x00), (0x00, 0x00), (0x00, 0x00)],
  [(0x00, 0x36), (0x04, 0x38), (0x02, 0x1F), (0x00, 0x1F), (0x00, 0x00), (0x00, 0x00)],
  [(0x00, 0x37), (0x04, 0x2F), (0x02, 0x31), (0x00, 0x20), (0x00, 0x00), (0x00, 0x00)],
  [(0x00, 0x0D), (0x02, 0x0D), (0x02, 0x36), (0x02, 0x36), (0x00, 0x00), (0x00, 0x00)],
  [(0x00, 0x00), (0x00, 0x00), (0x00, 0x00), (0x00, 0x00), (0x00, 0x00), (0x00, 0x00)],
  [(0x00, 0x3A), (0x00, 0x3A), (0x00, 0x3A), (0x00, 0x3A), (0x00, 0x3A), (0x00, 0x3A)],
  [(0x00, 0x3B), (0x00, 0x3B), (0x00, 0x3B), (0x00, 0x3B), (0x00, 0x3B), (0x00, 0x3B)],
  [(0x00, 0x3C), (0x00, 0x3C), (0x00, 0x3C), (0x00, 0x3C), (0x00, 0x3C), (0x00, 0x3C)],
  [(0x00, 0x3D), (0x00, 0x3D), (0x00, 0x3D), (0x00, 0x3D), (0x00, 0x3D), (0x00, 0x3D)],
  [(0x00, 0x3E), (0x00, 0x3E), (0x00, 0x3E), (0x00, 0x3E), (0x00, 0x3E), (0x00, 0x3E)],
  [(0x00, 0x3F), (0x00, 0x3F), (0x00, 0x3F), (0x00, 0x3F), (0x00, 0x3F), (0x00, 0x3F)],
  [(0x00, 0x40), (0x00, 0x40), (0x00, 0x40), (0x00, 0x40), (0x00, 0x40), (0x00, 0x40)],
  [(0x00, 0x41), (0x00, 0x41), (0x00, 0x41), (0x00, 0x41), (0x00, 0x41), (0x00, 0x41)],
  [(0x00, 0x42), (0x00, 0x42), (0x00, 0x42), (0x00, 0x42), (0x00, 0x42), (0x00, 0x42)],
  [(0x00, 0x43), (0x00, 0x43), (0x00, 0x43), (0x00, 0x43), (0x00, 0x43), (0x00, 0x43)],
  [(0x00, 0x44), (0x00, 0x44), (0x00, 0x44), (0x00, 0x44), (0x00, 0x44), (0x00, 0x44)],
  [(0x00, 0x45), (0x00, 0x45), (0x00, 0x45), (0x00, 0x45), (0x00, 0x45), (0x00, 0x45)],
  [(0x00, 0x46), (0x00, 0x46), (0x00, 0x46), (0x00, 0x46), (0x00, 0x46), (0x00, 0x46)],
  [(0x00, 0x47), (0x00, 0x47), (0x00, 0x47), (0x00, 0x47), (0x00, 0x47), (0x00, 0x47)],
  [(0x00, 0x48), (0x00, 0x48), (0x00, 0x48), (0x00, 0x48), (0x00, 0x48), (0x00, 0x48)],
  [(0x00, 0x49), (0x00, 0x49), (0x00, 0x49), (0x00, 0x49), (0x00, 0x49), (0x00, 0x49)],
  [(0x00, 0x4A), (0x00, 0x4A), (0x00, 0x4A), (0x00, 0x4A), (0x00, 0x4A), (0x00, 0x4A)],
  [(0x00, 0x4B), (0x00, 0x4B), (0x00, 0x4B), (0x00, 0x4B), (0x00, 0x4B), (0x00, 0x4B)],
  [(0x00, 0x4C), (0x00, 0x4C), (0x00, 0x4C), (0x00, 0x4C), (0x00, 0x4C), (0x00, 0x4C)],
  [(0x00, 0x4D), (0x00, 0x4D), (0x00, 0x4D), (0x00, 0x4D), (0x00, 0x4D), (0x00, 0x4D)],
  [(0x00, 0x4E), (0x00, 0x4E), (0x00, 0x4E), (0x00, 0x4E), (0x00, 0x4E), (0x00, 0x4E)],
  [(0x00, 0x4F), (0x00, 0x4F), (0x00, 0x4F), (0x00, 0x4F), (0x00, 0x4F), (0x00, 0x4F)],
  [(0x00, 0x50), (0x00, 0x50), (0x00, 0x50), (0x00, 0x50), (0x00, 0x50), (0x00, 0x50)],
  [(0x00, 0x51), (0x00, 0x51), (0x00, 0x51), (0x00, 0x51), (0x00, 0x51), (0x00, 0x51)],
  [(0x00, 0x52), (0x00, 0x52), (0x00, 0x52), (0x00, 0x52), (0x00, 0x52), (0x00, 0x52)],
  [(0x00, 0x2B), (0x00, 0x00), (0x00, 0x00), (0x00, 0x00), (0x00, 0x00), (0x00, 0x00)],
  [(0x02, 0x24), (0x00, 0x00), (0x00, 0x00), (0x00, 0x00), (0x00, 0x00), (0x00, 0x00)],
  [(0x02, 0x30), (0x00, 0x00), (0x00, 0x00), (0x00, 0x00), (0x00, 0x00), (0x00, 0x00)],
  [(0x00, 0x38), (0x00, 0x00), (0x00, 0x00), (0x00, 0x00), (0x00, 0x00), (0x00, 0x00)],
  [(0x00, 0x30), (0x00, 0x00), (0x00, 0x00), (0x00, 0x00), (0x00, 0x00), (0x00, 0x00)],
  [(0x00, 0x28), (0x00, 0x00), (0x00, 0x00), (0x00, 0x00), (0x00, 0x00), (0x00, 0x00)],
  [(0x00, 0x1E), (0x00, 0x00), (0x00, 0x00), (0x00, 0x00), (0x00, 0x00), (0x00, 0x00)],
  [(0x00, 0x1F), (0x00, 0x00), (0x00, 0x00), (0x00, 0x00), (0x00, 0x00), (0x00, 0x00)],
  [(0x00, 0x20), (0x00, 0x00), (0x00, 0x00), (0x00, 0x00), (0x00, 0x00), (0x00, 0x00)],
  [(0x00, 0x21), (0x00, 0x00), (0x00, 0x00), (0x00, 0x00), (0x00, 0x00), (0x00, 0x00)],
  [(0x00, 0x22), (0x00, 0x00), (0x00, 0x00), (0x00, 0x00), (0x00, 0x00), (0x00, 0x00)],
  [(0x00, 0x23), (0x00, 0x00), (0x00, 0x00), (0x00, 0x00), (0x00, 0x00), (0x00, 0x00)],
  [(0x00, 0x24), (0x00, 0x00), (0x00, 0x00), (0x00, 0x00), (0x00, 0x00), (0x00, 0x00)],
  [(0x00, 0x25), (0x00, 0x00), (0x00, 0x00), (0x00, 0x00), (0x00, 0x00), (0x00, 0x00)],
  [(0x00, 0x26), (0x00, 0x00), (0x00, 0x00), (0x00, 0x00), (0x00, 0x00), (0x00, 0x00)],
  [(0x00, 0x27), (0x00, 0x00), (0x00, 0x00), (0x00, 0x00), (0x00, 0x00), (0x00, 0x00)],
  [(0x00, 0x36), (0x00, 0x00), (0x00, 0x00), (0x00, 0x00), (0x00, 0x00), (0x00, 0x00)]
]

/-- `chars[u][layer]` with the C table; indices used by the program are
always in range. -/
def charsAt (u lay : Nat) : Nat × Nat := (chars.getD u []).getD lay (0, 0)

/-- The cascading-`case`/`++u` chain of `parse_events`, as the resulting
dense index: raw Linux key code to dense `u` (4–99); any code not in
the chain leaves `u` at its initial value 1. -/
def keyU (code : Nat) : Nat :=
  match code with
  | 30 => 4   -- KEY_A
  | 48 => 5   -- KEY_B
  | 46 => 6   -- KEY_C
  | 32 => 7   -- KEY_D
  | 18 => 8   -- KEY_E
  | 33 => 9   -- KEY_F
  | 34 => 10  -- KEY_G
  | 35 => 11  -- KEY_H
  | 23 => 12  -- KEY_I
  | 36 => 13  -- KEY_J
  | 37 => 14  -- KEY_K
  | 38 => 15  -- KEY_L
  | 50 => 16  -- KEY_M
  | 49 => 17  -- KEY_N
  | 24 => 18  -- KEY_O
  | 25 => 19  -- KEY_P
  | 16 => 20  -- KEY_Q
  | 19 => 21  -- KEY_R
  | 31 => 22  -- KEY_S
  | 20 => 23  -- KEY_T
  | 22 => 24  -- KEY_U
  | 47 => 25  -- KEY_V
  | 17 => 26  -- KEY_W
  | 45 => 27  -- KEY_X
  | 21 => 28  -- KEY_Y
  | 44 => 29  -- KEY_Z
  | 2 => 30   -- KEY_1
  | 3 => 31   -- KEY_2
  | 4 => 32   -- KEY_3
  | 5 => 33   -- KEY_4
  | 6 => 34   -- KEY_5
  | 7 => 35   -- KEY_6
  | 8 => 36   -- KEY_7
  | 9 => 37   -- KEY_8
  | 10 => 38  -- KEY_9
  | 11 => 39  -- KEY_0
  | 28 => 40  -- KEY_ENTER
  | 1 => 41   -- KEY_ESC
  | 14 => 42  -- KEY_BACKSPACE
  | 15 => 43  -- KEY_TAB
  | 57 => 44  -- KEY_SPACE
  | 12 => 45  -- KEY_MINUS
  | 13 => 46  -- KEY_EQUAL
  | 26 => 47  -- KEY_LEFTBRACE
  | 27 => 48  -- KEY_RIGHTBRACE
  | 39 => 51  -- KEY_SEMICOLON
  | 40 => 52  -- KEY_APOSTROPHE
  | 41 => 53  -- KEY_GRAVE
  | 51 => 54  -- KEY_COMMA
  | 52 => 55  -- KEY_DOT
  | 53 => 56  -- KEY_SLASH
  | 59 => 58  -- KEY_F1
  | 60 => 59  -- KEY_F2
  | 61 => 60  -- KEY_F3
  | 62 => 61  -- KEY_F4
  | 63 => 62  -- KEY_F5
  | 64 => 63  -- KEY_F6
  | 65 => 64  -- KEY_F7
  | 66 => 65  -- KEY_F8
  | 67 => 66  -- KEY_F9
  | 68 => 67  -- KEY_F10
  | 87 => 68  -- KEY_F11
  | 88 => 69  -- KEY_F12
  | 70 => 71  -- KEY_SCROLLLOCK
  | 119 => 72 -- KEY_PAUSE
  | 110 => 73 -- KEY_INSERT
  | 102 => 74 -- KEY_HOME
  | 104 => 75 -- KEY_PAGEUP
  | 111 => 76 -- KEY_DELETE
  | 107 => 77 -- KEY_END
  | 109 => 78 -- KEY_PAGEDOWN
  | 106 => 79 -- KEY_RIGHT
  | 105 => 80 -- KEY_LEFT
  | 108 => 81 -- KEY_DOWN
  | 103 => 82 -- KEY_UP
  | 69 => 83  -- KEY_NUMLOCK
  | 98 => 84  -- KEY_KPSLASH
  | 55 => 85  -- KEY_KPASTERISK
  | 74 => 86  -- KEY_KPMINUS
  | 78 => 87  -- KEY_KPPLUS
  | 96 => 88  -- KEY_KPENTER
  | 79 => 89  -- KEY_KP1
  | 80 => 90  -- KEY_KP2
  | 81 => 91  -- KEY_KP3
  | 75 => 92  -- KEY_KP4
  | 76 => 93  -- KEY_KP5
  | 77 => 94  -- KEY_KP6
  | 71 => 95  -- KEY_KP7
  | 72 => 96  -- KEY_KP8
  | 73 => 97  -- KEY_KP9
  | 82 => 98  -- KEY_KP0
  | 83 => 99  -- KEY_KPDOT
  | _ => 1

/-- The `pressedmod` constant assigned by the modifier cases of the
inner switch; 0 for every other code. -/
def pressedmodOf (code : Nat) : Nat :=
  match code with
  | 126 => 0x8080 -- KEY_RIGHTMETA
  | 97 => 0x8010  -- KEY_RIGHTCTRL
  | 125 => 0x8008 -- KEY_LEFTMETA
  | 56 => 0x8004  -- KEY_LEFTALT
  | 29 => 0x8001  -- KEY_LEFTCTRL
  | 42 => 0x0002  -- KEY_LEFTSHIFT
  | 100 => 0x0040 -- KEY_RIGHTALT
  | 54 => 0x0020  -- KEY_RIGHTSHIFT
  | 58 => 0x0100  -- KEY_CAPSLOCK
  | 43 => 0x0200  -- KEY_BACKSLASH
  | 86 => 0x0400  -- KEY_102ND
  | _ => 0

/-- The three `layermod` group tests over `modifierkeys`. -/
def layermodOf (mk : Nat) : Nat :=
  ((if mk &&& 0x0022 ≠ 0 then 0x01 else 0) |||
   (if mk &&& 0x0300 ≠ 0 then 0x02 else 0)) |||
  (if mk &&& 0x0440 ≠ 0 then 0x04 else 0)

/-- The cascade of `if` statements that turns `layermod` into the final
`layer`, later assignments overriding earlier ones. -/
def layerOf (mk : Nat) : Nat :=
  let lm := layermodOf mk
  let l1 := if lm &&& 0x01 = 0x01 then 1 else 0
  let l2 := if lm &&& 0x02 = 0x02 then 2 else l1
  let l3 := if lm &&& 0x04 = 0x04 then 3 else l2
  let l4 := if lm &&& 0x03 = 0x03 then 4 else l3
  if lm &&& 0x06 = 0x06 then 5 else l4

/-- The "key down" loop: put `c` into the first zero slot of
`pressedkey`, stopping early if `c` is already present. -/
def pkInsert : List Nat → Nat → List Nat
  | [], _ => []
  | x :: xs, c =>
    if x = 0 then c :: xs
    else if x = c then x :: xs
    else x :: pkInsert xs c

/-- The "key up" loop: remove the first occurrence of `c`, shifting the
later entries left and zero-filling the last slot. -/
def pkRemove : List Nat → Nat → List Nat
  | [], _ => []
  | x :: xs, c =>
    if x = c then xs ++ [0]
    else x :: pkRemove xs c

/-- The 11 wire bytes of a keyboard report
(`0xA1, REPORTID_KEYBD, modify, key[8]`). -/
def keybRep (m : Nat) (pk : List Nat) : List Nat := 0xA1 :: 2 :: m :: pk

/-- The 6 wire bytes of a mouse report
(`0xA1, REPORTID_MOUSE, button, axis_x, axis_y, axis_z`). -/
def mouseRep (btn : Nat) (x y z : Int) : List Nat :=
  [0xA1, 1, btn, byteOfInt x, byteOfInt y, byteOfInt z]

/-- The code shared by every `EV_KEY` event after the inner switch
(lines 1179–1284): update `modifierkeys`, pick the layer and the table
entry, update `pressedkey`, build the keyboard report and send it when
connected and unmuted.  `mod0` is the value the local `mod` has when
this point is reached (0 except after the password burst). -/
def keyTail (s : PState) (sr : List Bool) (value : Int)
    (pressedmod u mod0 : Nat) : StepRes :=
  let mk0 := s.modifierkeys &&& (0xffff - pressedmod)
  let mk := if 1 ≤ value then mk0 ||| pressedmod else mk0
  let m1 := if pressedmod &&& 0x8000 ≠ 0 then mk &&& 0xff else mod0
  let pc := (charsAt u (layerOf mk)).2
  let m2 := if pc ≠ 0 then (charsAt u (layerOf mk)).1 else m1
  let pk := if value = 1 then pkInsert s.pressedkey pc
            else if value = 0 then pkRemove s.pressedkey pc
            else s.pressedkey
  let s' := { s with modifierkeys := mk, pressedkey := pk }
  if s'.connectionok then
    if s'.onFlag then
      let t := takeSend sr
      ⟨s', [⟨keybRep m2 pk, t.1⟩], t.2, if t.1 then .cont else .disc⟩
    else ⟨s', [], sr, .cont⟩
  else ⟨s', [], sr, .cont⟩

/-- Result of the password-burst `for` loop. -/
structure BurstRes where
  pk : List Nat
  m : Nat
  outs : List Send
  sr : List Bool
  failed : Bool
deriving DecidableEq, Repr

/-- The `for(i=0;i<ARRAY;i++)` password-burst loop: each step stores
`pass[i][1]` in `pressedkey[0]`, breaks out if not connected, sends the
report when unmuted, and aborts (`failed`) on a send error. -/
def burstLoop (conn onb : Bool) : List (Nat × Nat) → List Nat → Nat →
    List Bool → BurstRes
  | [], pk, m, sr => ⟨pk, m, [], sr, false⟩
  | p :: ps, pk, _m, sr =>
    let m' := p.1
    let pk' := pk.set 0 p.2
    if conn then
      if onb then
        let t := takeSend sr
        if t.1 then
          let r := burstLoop conn onb ps pk' m' t.2
          ⟨r.pk, r.m, ⟨keybRep m' pk', true⟩ :: r.outs, r.sr, r.failed⟩
        else ⟨pk', m', [⟨keybRep m' pk', false⟩], t.2, true⟩
      else
        let r := burstLoop conn onb ps pk' m' sr
        ⟨r.pk, r.m, r.outs, r.sr, r.failed⟩
    else ⟨pk', m', [], sr, false⟩

/-- `parse_events` on a single decoded `input_event`, threading the
state, the sends attempted and the send-result oracle.  `pass` is the
credential table from the missing `pass.h` (modelled from the spec:
"a preconfigured fixed sequence of (modifier, keyUsage) pairs"). -/
def stepEvent (pass : List (Nat × Nat)) (s : PState) (sr : List Bool)
    (e : Ev) : StepRes :=
  if e.type = 1 then  -- EV_KEY
    if e.code = 272 ∨ e.code = 273 ∨ e.code = 274 then
      -- BTN_LEFT / BTN_RIGHT / BTN_MIDDLE
      let c := 1 <<< (e.code &&& 0x03)
      let mb0 := s.mousebuttons &&& (0x07 - c)
      let mb := if e.value = 1 then mb0 ||| c else mb0
      let s1 := { s with mousebuttons := mb }
      let rep := mouseRep (mb &&& 0x07) 0 0 0
      if s1.connectionok then
        let t := takeSend sr
        if t.1 then
          let r := keyTail s1 t.2 e.value 0 1 0
          ⟨r.st, ⟨rep, true⟩ :: r.outs, r.sr, r.ctl⟩
        else ⟨s1, [⟨rep, false⟩], t.2, .disc⟩
      else keyTail s1 sr e.value 0 1 0
    else if e.code = 99 then  -- KEY_SYSRQ
      if e.value = 0 then
        if s.modifierkeys &&& 0x1 = 0x1 then
          -- LCtrl held: final empty report (result ignored), then exit(0)
          if s.connectionok then
            let t := takeSend sr
            ⟨s, [⟨keybRep 0 (List.replicate 8 0), t.1⟩], t.2, .exited 0⟩
          else ⟨s, [], sr, .exited 0⟩
        else if s.modifierkeys &&& 0x10 = 0x10 then
          -- RCtrl held: password burst, then pressedkey[0]=0 and the tail
          let r := burstLoop s.connectionok s.onFlag pass s.pressedkey 0 sr
          if r.failed then ⟨{ s with pressedkey := r.pk }, r.outs, r.sr, .disc⟩
          else
            let s1 := { s with pressedkey := r.pk.set 0 0 }
            let r2 := keyTail s1 r.sr 0 0 1 r.m
            ⟨r2.st, r.outs ++ r2.outs, r2.sr, r2.ctl⟩
        else
          -- no Ctrl: flip the mute toggle, then the tail
          keyTail { s with onFlag := ! s.onFlag } sr 0 0 1 0
      else keyTail s sr e.value 0 1 0
    else keyTail s sr e.value (pressedmodOf e.code) (keyU e.code) 0
  else if e.type = 2 then  -- EV_REL
    if e.code = 0 ∨ e.code = 1 ∨ e.code = 2 ∨ e.code = 8 then
      let rep := mouseRep (s.mousebuttons &&& 0x07)
        (if e.code = 0 then e.value else 0)
        (if e.code = 1 then e.value else 0)
        (if 2 ≤ e.code then e.value else 0)
      if s.connectionok then
        let t := takeSend sr
        ⟨s, [⟨rep, t.1⟩], t.2, if t.1 then .cont else .disc⟩
      else ⟨s, [], sr, .cont⟩
    else ⟨s, [], sr, .cont⟩
  else ⟨s, [], sr, .cont⟩

/-- Process a list of decoded events in order, stopping as soon as one
of them makes `parse_events` return `-1` or exit, and concatenating the
attempted sends. -/
def runEvents (pass : List (Nat × Nat)) (s : PState) (sr : List Bool) :
    List Ev → StepRes
  | [] => ⟨s, [], sr, .cont⟩
  | e :: es =>
    let r := stepEvent pass s sr e
    match r.ctl with
    | .cont =>
      let r2 := runEvents pass r.st r.sr es
      ⟨r2.st, r.outs ++ r2.outs, r2.sr, r2.ctl⟩
    | .disc => ⟨r.st, r.outs, r.sr, .disc⟩
    | .exited c => ⟨r.st, r.outs, r.sr, .exited c⟩

/-- The globals at program start:
`mousebuttons = 0`, `modifierkeys = 0`, `pressedkey = {0,...,0}`,
`on = 0`, `connectionok = 0`. -/
def initState : PState :=
  ⟨0, 0, List.replicate 8 0, false, false⟩

/-- `main` the instant both channels are accepted:
`connectionok = 1; memset(pressedkey,0,8); modifierkeys = 0;
mousebuttons = 0;` (lines 1566–1569). -/
def connectReset (s : PState) : PState :=
  { s with connectionok := true, pressedkey := List.replicate 8 0,
           modifierkeys := 0, mousebuttons := 0 }

/-- Observable condition of the process after `main` reacts to one
`parse_events` result while a session is connected. -/
structure MainSt where
  /-- still in the `while (connectionok)` session loop -/
  connected : Bool
  /-- `sint`/`sctl` still open -/
  chanOpen : Bool
  /-- the process is still running -/
  running : Bool
  /-- exit status, if the process ended -/
  exitCode : Option Nat
  /-- the end-of-`main` teardown (`sdpunregister`, `closeevents`,
  `cleanup_stdin`) was executed -/
  teardownDone : Bool
deriving DecidableEq, Repr

/-- `main`, lines 1575–1601, on the result of `parse_events` while
connected: `0 > j` clears `connectionok`, leaves the session loop and
closes both channel sockets, the outer loop keeps running; a `j < -1`
would additionally set `prepareshutdown`, but the translator never
returns below `-1`; an `exit()` inside `parse_events` ends the process
at once, skipping the teardown at the end of `main`. -/
def mainOnParseResult : Ctl → MainSt
  | .cont => ⟨true, true, true, none, false⟩
  | .disc => ⟨false, false, true, none, false⟩
  | .exited c => ⟨false, false, false, some c, false⟩

/-! ## Well-formedness of `pressedkey` -/

/-- Every slot is zero. -/
def zeroSuffix (l : List Nat) : Bool := l.all (fun x => x = 0)

/-- The shape `parse_events` maintains in `pressedkey`: after the first
zero slot only zero slots follow. -/
def shapeOK : List Nat → Bool
  | [] => true
  | x :: xs => if x = 0 then zeroSuffix xs else shapeOK xs

/-- The usage values currently reported as held (the non-zero slots, in
order). -/
def nonzeros (l : List Nat) : List Nat := l.filter (fun x => x ≠ 0)

/-- Well-formedness of the held-usage prefix: shape plus no duplicate
non-zero usage value. -/
def pkGood (pk : List Nat) : Prop :=
  shapeOK pk = true ∧ (nonzeros pk).Nodup

/-- Full well-formedness of `pressedkey`: 8 slots and a good prefix. -/
def pkWF (pk : List Nat) : Prop := pk.length = 8 ∧ pkGood pk

instance (pk : List Nat) : Decidable (pkGood pk) :=
  inferInstanceAs (Decidable (shapeOK pk = true ∧ (nonzeros pk).Nodup))

instance (pk : List Nat) : Decidable (pkWF pk) :=
  inferInstanceAs (Decidable (pk.length = 8 ∧ pkGood pk))

/-! ## Lemmas about the `pressedkey` operations -/

theorem pkInsert_length (pk : List Nat) (c : Nat) :
    (pkInsert pk c).length = pk.length := by
  induction pk with
  | nil => rfl
  | cons x xs ih =>
    by_cases h0 : x = 0 <;> by_cases hc : x = c <;>
      simp [pkInsert, h0, hc, ih]

theorem pkRemove_length (pk : List Nat) (c : Nat) :
    (pkRemove pk c).length = pk.length := by
  induction pk with
  | nil => rfl
  | cons x xs ih =>
    by_cases hc : x = c <;> simp [pkRemove, hc, ih]

theorem mem_pkInsert {y c : Nat} {pk : List Nat} (h : y ∈ pkInsert pk c) :
    y ∈ pk ∨ y = c := by
  induction pk with
  | nil => simp [pkInsert] at h
  | cons x xs ih =>
    by_cases h0 : x = 0
    · simp [pkInsert, h0] at h
      rcases h with h | h
      · exact Or.inr h
      · exact Or.inl (List.mem_cons_of_mem _ h)
    · by_cases hc : x = c
      · simp [pkInsert, h0, hc] at h
        rcases h with h | h
        · exact Or.inl (by simp [h, hc])
        · exact Or.inl (List.mem_cons_of_mem _ h)
      · simp [pkInsert, h0, hc] at h
        rcases h with h | h
        · exact Or.inl (by simp [h])
        · rcases ih h with h | h
          · exact Or.inl (List.mem_cons_of_mem _ h)
          · exact Or.inr h

theorem mem_pkRemove {y c : Nat} {pk : List Nat} (h : y ∈ pkRemove pk c) :
    y ∈ pk ∨ y = 0 := by
  induction pk with
  | nil => simp [pkRemove] at h
  | cons x xs ih =>
    by_cases hc : x = c
    · simp [pkRemove, hc] at h
      rcases h with h | h
      · exact Or.inl (List.mem_cons_of_mem _ h)
      · exact Or.inr h
    · simp [pkRemove, hc] at h
      rcases h with h | h
      · exact Or.inl (by simp [h])
      · rcases ih h with h | h
        · exact Or.inl (List.mem_cons_of_mem _ h)
        · exact Or.inr h

theorem pkInsert_zero (pk : List Nat) : pkInsert pk 0 = pk := by
  induction pk with
  | nil => rfl
  | cons x xs ih =>
    by_cases h0 : x = 0
    · simp [pkInsert, h0]
    · simp [pkInsert, h0, ih]

theorem zeroSuffix_nonzeros {l : List Nat} (h : zeroSuffix l = true) :
    nonzeros l = [] := by
  induction l with
  | nil => rfl
  | cons x xs ih =>
    simp [zeroSuffix] at h
    simp [nonzeros, List.filter_cons, h.1]
    simpa [nonzeros] using ih (by simpa [zeroSuffix] using h.2)

theorem zeroSuffix_shapeOK {l : List Nat} (h : zeroSuffix l = true) :
    shapeOK l = true := by
  induction l with
  | nil => rfl
  | cons x xs ih =>
    simp [zeroSuffix] at h
    simp [shapeOK, h.1]
    simpa [zeroSuffix] using h.2

theorem zeroSuffix_append_zero {l : List Nat} (h : zeroSuffix l = true) :
    zeroSuffix (l ++ [0]) = true := by
  simp [zeroSuffix] at h ⊢
  exact h

theorem shapeOK_append_zero {l : List Nat} (h : shapeOK l = true) :
    shapeOK (l ++ [0]) = true := by
  induction l with
  | nil => rfl
  | cons x xs ih =>
    by_cases h0 : x = 0
    · simp [shapeOK, h0] at h ⊢
      simpa using (by simpa [zeroSuffix] using
        zeroSuffix_append_zero (l := xs) (by simpa [zeroSuffix] using h))
    · simp [shapeOK, h0] at h ⊢
      exact ih h

theorem zeroSuffix_cons (x : Nat) (xs : List Nat) :
    zeroSuffix (x :: xs) = true ↔ x = 0 ∧ zeroSuffix xs = true := by
  simp [zeroSuffix]

theorem shapeOK_cons_zero {xs : List Nat} :
    shapeOK (0 :: xs) = true ↔ zeroSuffix xs = true := by
  simp [shapeOK]

theorem shapeOK_cons_ne {x : Nat} {xs : List Nat} (h : x ≠ 0) :
    shapeOK (x :: xs) = true ↔ shapeOK xs = true := by
  simp [shapeOK, h]

theorem zeroSuffix_cons_zero {l : List Nat} (h : zeroSuffix l = true) :
    l ++ [0] = 0 :: l := by
  induction l with
  | nil => rfl
  | cons x xs ih =>
    rw [zeroSuffix_cons] at h
    obtain ⟨rfl, h⟩ := h
    simp only [List.cons_append, ih h]

theorem pkRemove_of_zeroSuffix {l : List Nat} {c : Nat}
    (h : zeroSuffix l = true) (hc : c ≠ 0) : pkRemove l c = l := by
  induction l with
  | nil => rfl
  | cons x xs ih =>
    rw [zeroSuffix_cons] at h
    obtain ⟨rfl, h⟩ := h
    have h0c : ¬ ((0 : Nat) = c) := fun e => hc e.symm
    simp only [pkRemove, if_neg h0c, ih h]

theorem pkRemove_zero {pk : List Nat} (h : shapeOK pk = true) :
    pkRemove pk 0 = pk := by
  induction pk with
  | nil => rfl
  | cons x xs ih =>
    by_cases h0 : x = 0
    · subst h0
      rw [shapeOK_cons_zero] at h
      have hr : pkRemove (0 :: xs) 0 = xs ++ [0] := by simp [pkRemove]
      rw [hr, zeroSuffix_cons_zero h]
    · rw [shapeOK_cons_ne h0] at h
      simp only [pkRemove, if_neg h0, ih h]

theorem nonzeros_cons_ne {x : Nat} (xs : List Nat) (h : x ≠ 0) :
    nonzeros (x :: xs) = x :: nonzeros xs := by
  simp [nonzeros, List.filter_cons, h]

theorem nonzeros_cons_zero (xs : List Nat) :
    nonzeros (0 :: xs) = nonzeros xs := by
  simp [nonzeros, List.filter_cons]

theorem nonzeros_append_zero (xs : List Nat) :
    nonzeros (xs ++ [0]) = nonzeros xs := by
  simp [nonzeros, List.filter_append]

theorem mem_nonzeros {x : Nat} {xs : List Nat} :
    x ∈ nonzeros xs ↔ x ∈ xs ∧ x ≠ 0 := by
  simp [nonzeros]

theorem pkInsert_shape {pk : List Nat} {c : Nat} (hs : shapeOK pk = true) :
    shapeOK (pkInsert pk c) = true := by
  induction pk with
  | nil => rfl
  | cons x xs ih =>
    by_cases h0 : x = 0
    · subst h0
      rw [shapeOK_cons_zero] at hs
      have hi : pkInsert (0 :: xs) c = c :: xs := by simp [pkInsert]
      rw [hi]
      by_cases hc : c = 0
      · subst hc
        exact shapeOK_cons_zero.mpr hs
      · exact (shapeOK_cons_ne hc).mpr (zeroSuffix_shapeOK hs)
    · rw [shapeOK_cons_ne h0] at hs
      by_cases hc : x = c
      · simp only [pkInsert, if_neg h0, if_pos hc]
        exact (shapeOK_cons_ne h0).mpr hs
      · simp only [pkInsert, if_neg h0, if_neg hc]
        exact (shapeOK_cons_ne h0).mpr (ih hs)

theorem pkInsert_nodup {pk : List Nat} {c : Nat}
    (hs : shapeOK pk = true) (hn : (nonzeros pk).Nodup) :
    (nonzeros (pkInsert pk c)).Nodup := by
  induction pk with
  | nil => exact hn
  | cons x xs ih =>
    by_cases h0 : x = 0
    · subst h0
      rw [shapeOK_cons_zero] at hs
      have hi : pkInsert (0 :: xs) c = c :: xs := by simp [pkInsert]
      rw [hi]
      by_cases hc : c = 0
      · subst hc
        rwa [nonzeros_cons_zero] at hn ⊢
      · rw [nonzeros_cons_ne _ hc, zeroSuffix_nonzeros hs]
        simp
    · rw [shapeOK_cons_ne h0] at hs
      rw [nonzeros_cons_ne _ h0] at hn
      have hx : x ∉ nonzeros xs := (List.nodup_cons.mp hn).1
      have hn' : (nonzeros xs).Nodup := (List.nodup_cons.mp hn).2
      by_cases hc : x = c
      · simp only [pkInsert, if_neg h0, if_pos hc]
        rw [nonzeros_cons_ne _ h0]
        exact List.nodup_cons.mpr ⟨hx, hn'⟩
      · simp only [pkInsert, if_neg h0, if_neg hc]
        rw [nonzeros_cons_ne _ h0]
        refine List.nodup_cons.mpr ⟨?_, ih hs hn'⟩
        intro hmem
        rcases mem_pkInsert (mem_nonzeros.mp hmem).1 with h2 | h2
        · exact hx (mem_nonzeros.mpr ⟨h2, h0⟩)
        · exact hc h2

theorem pkRemove_shape {pk : List Nat} {c : Nat} (hs : shapeOK pk = true) :
    shapeOK (pkRemove pk c) = true := by
  induction pk with
  | nil => rfl
  | cons x xs ih =>
    by_cases hc : x = c
    · simp only [pkRemove, if_pos hc]
      by_cases h0 : x = 0
      · subst h0
        rw [shapeOK_cons_zero] at hs
        exact zeroSuffix_shapeOK (zeroSuffix_append_zero hs)
      · rw [shapeOK_cons_ne h0] at hs
        exact shapeOK_append_zero hs
    · simp only [pkRemove, if_neg hc]
      by_cases h0 : x = 0
      · subst h0
        rw [shapeOK_cons_zero] at hs
        rw [pkRemove_of_zeroSuffix hs (fun e => hc e.symm)]
        exact shapeOK_cons_zero.mpr hs
      · rw [shapeOK_cons_ne h0] at hs
        exact (shapeOK_cons_ne h0).mpr (ih hs)

theorem pkRemove_nodup {pk : List Nat} {c : Nat}
    (hs : shapeOK pk = true) (hn : (nonzeros pk).Nodup) :
    (nonzeros (pkRemove pk c)).Nodup := by
  induction pk with
  | nil => exact hn
  | cons x xs ih =>
    by_cases hc : x = c
    · simp only [pkRemove, if_pos hc]
      rw [nonzeros_append_zero]
      by_cases h0 : x = 0
      · subst h0
        rwa [nonzeros_cons_zero] at hn
      · rw [nonzeros_cons_ne _ h0] at hn
        exact (List.nodup_cons.mp hn).2
    · simp only [pkRemove, if_neg hc]
      by_cases h0 : x = 0
      · subst h0
        rw [shapeOK_cons_zero] at hs
        rw [pkRemove_of_zeroSuffix hs (fun e => hc e.symm)]
        exact hn
      · rw [shapeOK_cons_ne h0] at hs
        rw [nonzeros_cons_ne _ h0] at hn
        have hx : x ∉ nonzeros xs := (List.nodup_cons.mp hn).1
        rw [nonzeros_cons_ne _ h0]
        refine List.nodup_cons.mpr ⟨?_, ih hs (List.nodup_cons.mp hn).2⟩
        intro hmem
        rcases mem_pkRemove (mem_nonzeros.mp hmem).1 with h2 | h2
        · exact hx (mem_nonzeros.mpr ⟨h2, h0⟩)
        · exact h0 h2

theorem pkInsert_good {pk : List Nat} {c : Nat} (h : pkGood pk) :
    pkGood (pkInsert pk c) :=
  ⟨pkInsert_shape h.1, pkInsert_nodup h.1 h.2⟩

theorem pkRemove_good {pk : List Nat} {c : Nat} (h : pkGood pk) :
    pkGood (pkRemove pk c) :=
  ⟨pkRemove_shape h.1, pkRemove_nodup h.1 h.2⟩

theorem pkInsert_WF {pk : List Nat} {c : Nat} (h : pkWF pk) :
    pkWF (pkInsert pk c) :=
  ⟨by rw [pkInsert_length]; exact h.1, pkInsert_good h.2⟩

theorem pkRemove_WF {pk : List Nat} {c : Nat} (h : pkWF pk) :
    pkWF (pkRemove pk c) :=
  ⟨by rw [pkRemove_length]; exact h.1, pkRemove_good h.2⟩

/-- The net effect on a well-formed `pressedkey` of the burst's
`pressedkey[0] = ...; ...; pressedkey[0] = 0` followed by the tail's
removal of usage 0. -/
theorem pkWF_burst_net {pk : List Nat} (h : pkWF pk) :
    pkWF (pkRemove (pk.set 0 0) 0) := by
  obtain ⟨hlen, hs, hn⟩ := h
  match pk, hlen with
  | x :: xs, hlen =>
    have hset : (x :: xs).set 0 0 = 0 :: xs := rfl
    rw [hset]
    have hzs : shapeOK xs = true := by
      by_cases h0 : x = 0
      · subst h0
        exact zeroSuffix_shapeOK (shapeOK_cons_zero.mp hs)
      · exact (shapeOK_cons_ne h0).mp hs
    have hr : pkRemove (0 :: xs) 0 = xs ++ [0] := by simp [pkRemove]
    rw [hr]
    refine ⟨?_, shapeOK_append_zero hzs, ?_⟩
    · simpa using hlen
    · rw [nonzeros_append_zero]
      by_cases h0 : x = 0
      · subst h0
        rwa [nonzeros_cons_zero] at hn
      · rw [nonzeros_cons_ne _ h0] at hn
        exact (List.nodup_cons.mp hn).2

/-! ## Arithmetic helpers -/

theorem and_ffff_eq {x : Nat} (h : x < 65536) : x &&& 65535 = x := by
  have h1 : (65535 : Nat) = 2 ^ 16 - 1 := by norm_num
  rw [h1, Nat.and_pow_two_sub_one_eq_mod, Nat.mod_eq_of_lt h]

theorem and_ffff_sub_lt (x pm : Nat) (hpm : pm ≤ 65535) :
    x &&& (65535 - pm) < 65536 := by
  have : x &&& (65535 - pm) ≤ 65535 - pm := Nat.and_le_right
  omega

theorem or_lt_65536 {x y : Nat} (hx : x < 65536) (hy : y < 65536) :
    x ||| y < 65536 := by
  have h1 : (65536 : Nat) = 2 ^ 16 := by norm_num
  rw [h1] at hx hy ⊢
  exact Nat.or_lt_two_pow hx hy

/-- All `pressedmod` constants fit in 16 bits. -/
theorem pressedmodOf_le (code : Nat) : pressedmodOf code ≤ 65535 := by
  unfold pressedmodOf
  split <;> norm_num

/-! ## The tail shared by all `EV_KEY` events -/

/-- Row 1 of the table (the `u = 1` dummy index every non-cascade key
keeps) is all zeroes, on every layer. -/
theorem charsAt_one (lay : Nat) : charsAt 1 lay = (0, 0) := by
  have h : chars.getD 1 [] =
      [(0, 0), (0, 0), (0, 0), (0, 0), (0, 0), (0, 0)] := by rfl
  unfold charsAt
  rw [h]
  rcases Nat.lt_or_ge lay 6 with hl | hl
  · interval_cases lay <;> rfl
  · rw [List.getD_eq_default]
    simpa using hl

/-- The modifier state `keyTail` stores back. -/
def mkAfter (mk pm : Nat) (v : Int) : Nat :=
  if 1 ≤ v then (mk &&& (0xffff - pm)) ||| pm else mk &&& (0xffff - pm)

/-- The `pressedkey` update performed for a value `v` event on usage
`pc`. -/
def pkUpd (v : Int) (pc : Nat) (pk : List Nat) : List Nat :=
  if v = 1 then pkInsert pk pc
  else if v = 0 then pkRemove pk pc
  else pk

/-- The modifier byte `keyTail` writes into the report. -/
def modAfter (mk pm u mod0 : Nat) (v : Int) : Nat :=
  let m1 := if pm &&& 0x8000 ≠ 0 then mkAfter mk pm v &&& 0xff else mod0
  if (charsAt u (layerOf (mkAfter mk pm v))).2 ≠ 0 then
    (charsAt u (layerOf (mkAfter mk pm v))).1
  else m1

/-- `keyTail`, written through the helper functions. -/
theorem keyTail_eq (s : PState) (sr : List Bool) (v : Int)
    (pm u mod0 : Nat) :
    keyTail s sr v pm u mod0 =
      let mk := mkAfter s.modifierkeys pm v
      let pc := (charsAt u (layerOf mk)).2
      let pk := pkUpd v pc s.pressedkey
      let s' := { s with modifierkeys := mk, pressedkey := pk }
      if s'.connectionok then
        if s'.onFlag then
          ⟨s', [⟨keybRep (modAfter s.modifierkeys pm u mod0 v) pk,
            (takeSend sr).1⟩], (takeSend sr).2,
            if (takeSend sr).1 then .cont else .disc⟩
        else ⟨s', [], sr, .cont⟩
      else ⟨s', [], sr, .cont⟩ := by
  unfold keyTail mkAfter pkUpd modAfter
  rfl

theorem keyTail_st_fields (s : PState) (sr : List Bool) (v : Int)
    (pm u mod0 : Nat) :
    (keyTail s sr v pm u mod0).st.mousebuttons = s.mousebuttons ∧
    (keyTail s sr v pm u mod0).st.onFlag = s.onFlag ∧
    (keyTail s sr v pm u mod0).st.connectionok = s.connectionok ∧
    (keyTail s sr v pm u mod0).st.modifierkeys =
      mkAfter s.modifierkeys pm v ∧
    (keyTail s sr v pm u mod0).st.pressedkey =
      pkUpd v (charsAt u (layerOf (mkAfter s.modifierkeys pm v))).2
        s.pressedkey := by
  rw [keyTail_eq]
  dsimp only
  split
  · split <;> exact ⟨rfl, rfl, rfl, rfl, rfl⟩
  · exact ⟨rfl, rfl, rfl, rfl, rfl⟩

theorem keyTail_pk_WF {s : PState} (sr : List Bool) (v : Int)
    (pm u mod0 : Nat) (h : pkWF s.pressedkey) :
    pkWF (keyTail s sr v pm u mod0).st.pressedkey := by
  rw [(keyTail_st_fields s sr v pm u mod0).2.2.2.2]
  unfold pkUpd
  split
  · exact pkInsert_WF h
  · split
    · exact pkRemove_WF h
    · exact h

theorem keyTail_sr_nil (s : PState) (v : Int) (pm u mod0 : Nat) :
    (keyTail s [] v pm u mod0).sr = [] := by
  rw [keyTail_eq]
  dsimp only
  split
  · split <;> rfl
  · rfl

theorem keyTail_ctl_nil (s : PState) (v : Int) (pm u mod0 : Nat) :
    (keyTail s [] v pm u mod0).ctl = .cont := by
  rw [keyTail_eq]
  dsimp only
  split
  · split <;> rfl
  · rfl

theorem keyTail_outs_ok {s : PState} {sr : List Bool} {v : Int}
    {pm u mod0 : Nat} {o : Send}
    (ho : o ∈ (keyTail s sr v pm u mod0).outs) (hno : o.ok = false) :
    (keyTail s sr v pm u mod0).ctl = .disc := by
  rw [keyTail_eq] at ho ⊢
  dsimp only at ho ⊢
  split at ho <;> rename_i hconn
  · split at ho <;> rename_i hon
    · simp only [List.mem_singleton] at ho
      subst ho
      simp only at hno
      rw [if_pos hconn, if_pos hon]
      simp [hno]
    · simp at ho
  · simp at ho

/-! ## Burst-loop lemmas -/

theorem burstLoop_nil (conn onb : Bool) (ps : List (Nat × Nat))
    (pk : List Nat) (m : Nat) :
    (burstLoop conn onb ps pk m []).sr = [] ∧
    (burstLoop conn onb ps pk m []).failed = false ∧
    (burstLoop conn onb ps pk m []).pk.set 0 0 = pk.set 0 0 := by
  induction ps generalizing pk m with
  | nil => exact ⟨rfl, rfl, rfl⟩
  | cons p ps ih =>
    obtain ⟨h1, h2, h3⟩ := ih (pk.set 0 p.2) p.1
    cases conn with
    | false => exact ⟨rfl, rfl, List.set_set p.2 0 pk 0⟩
    | true =>
      cases onb with
      | false => exact ⟨h1, h2, h3.trans (List.set_set p.2 0 pk 0)⟩
      | true => exact ⟨h1, h2, h3.trans (List.set_set p.2 0 pk 0)⟩

theorem burstLoop_outs_ok {conn onb : Bool} {ps : List (Nat × Nat)}
    {pk : List Nat} {m : Nat} {sr : List Bool}
    (h : (burstLoop conn onb ps pk m sr).failed = false) :
    ∀ o ∈ (burstLoop conn onb ps pk m sr).outs, o.ok = true := by
  induction ps generalizing pk m sr with
  | nil => intro o ho; simp [burstLoop] at ho
  | cons p ps ih =>
    cases conn with
    | false => intro o ho; simp [burstLoop] at ho
    | true =>
      cases onb with
      | false =>
        intro o ho
        have ho' : o ∈ (burstLoop true false ps (pk.set 0 p.2) p.1 sr).outs :=
          ho
        exact ih (h := h) o ho'
      | true =>
        by_cases ht : (takeSend sr).1 = true
        · simp only [burstLoop, ht, if_true] at h ⊢
          intro o ho
          rcases List.mem_cons.mp ho with rfl | ho
          · rfl
          · exact ih h o ho
        · simp only [burstLoop, ht] at h
          simp at h

theorem burstLoop_fail_of_bad {conn onb : Bool} {ps : List (Nat × Nat)}
    {pk : List Nat} {m : Nat} {sr : List Bool} {o : Send}
    (ho : o ∈ (burstLoop conn onb ps pk m sr).outs) (hbad : o.ok = false) :
    (burstLoop conn onb ps pk m sr).failed = true := by
  by_cases h : (burstLoop conn onb ps pk m sr).failed
  · exact h
  · have := burstLoop_outs_ok (Bool.not_eq_true _ ▸ h) o ho
    rw [this] at hbad
    exact absurd hbad (by simp)

/-! ## Per-event lemmas over all translator paths -/

theorem takeSend_nil : takeSend [] = (true, []) := rfl

theorem stepEvent_sr_nil (pass : List (Nat × Nat)) (s : PState) (e : Ev) :
    (stepEvent pass s [] e).sr = [] := by
  by_cases ht1 : e.type = 1
  · by_cases hmb : e.code = 272 ∨ e.code = 273 ∨ e.code = 274
    · unfold stepEvent
      rw [if_pos ht1, if_pos hmb]
      dsimp only [takeSend]
      split
      · rw [if_pos rfl]
        exact keyTail_sr_nil _ _ _ _ _
      · exact keyTail_sr_nil _ _ _ _ _
    · by_cases h99 : e.code = 99
      · by_cases hv0 : e.value = 0
        · by_cases hl : s.modifierkeys &&& 0x1 = 0x1
          · unfold stepEvent
            rw [if_pos ht1, if_neg hmb, if_pos h99, if_pos hv0, if_pos hl]
            split <;> rfl
          · by_cases hr : s.modifierkeys &&& 0x10 = 0x10
            · unfold stepEvent
              rw [if_pos ht1, if_neg hmb, if_pos h99, if_pos hv0, if_neg hl,
                if_pos hr]
              obtain ⟨h1, h2, _⟩ :=
                burstLoop_nil s.connectionok s.onFlag pass s.pressedkey 0
              dsimp only
              rw [if_neg (by simp [h2]), h1]
              exact keyTail_sr_nil _ _ _ _ _
            · unfold stepEvent
              rw [if_pos ht1, if_neg hmb, if_pos h99, if_pos hv0, if_neg hl,
                if_neg hr]
              exact keyTail_sr_nil _ _ _ _ _
        · unfold stepEvent
          rw [if_pos ht1, if_neg hmb, if_pos h99, if_neg hv0]
          exact keyTail_sr_nil _ _ _ _ _
      · unfold stepEvent
        rw [if_pos ht1, if_neg hmb, if_neg h99]
        exact keyTail_sr_nil _ _ _ _ _
  · by_cases ht2 : e.type = 2
    · by_cases hcd : e.code = 0 ∨ e.code = 1 ∨ e.code = 2 ∨ e.code = 8
      · unfold stepEvent
        rw [if_neg ht1, if_pos ht2, if_pos hcd]
        dsimp only [takeSend]
        cases hco : s.connectionok
        · rfl
        · rfl
      · unfold stepEvent
        rw [if_neg ht1, if_pos ht2, if_neg hcd]
    · unfold stepEvent
      rw [if_neg ht1, if_neg ht2]

theorem stepEvent_pk_WF (pass : List (Nat × Nat)) (s : PState) (e : Ev)
    (h : pkWF s.pressedkey) :
    pkWF (stepEvent pass s [] e).st.pressedkey := by
  by_cases ht1 : e.type = 1
  · by_cases hmb : e.code = 272 ∨ e.code = 273 ∨ e.code = 274
    · unfold stepEvent
      rw [if_pos ht1, if_pos hmb]
      dsimp only [takeSend]
      split
      · rw [if_pos rfl]
        exact keyTail_pk_WF _ _ _ _ _ h
      · exact keyTail_pk_WF _ _ _ _ _ h
    · by_cases h99 : e.code = 99
      · by_cases hv0 : e.value = 0
        · by_cases hl : s.modifierkeys &&& 0x1 = 0x1
          · unfold stepEvent
            rw [if_pos ht1, if_neg hmb, if_pos h99, if_pos hv0, if_pos hl]
            split <;> exact h
          · by_cases hr : s.modifierkeys &&& 0x10 = 0x10
            · unfold stepEvent
              rw [if_pos ht1, if_neg hmb, if_pos h99, if_pos hv0, if_neg hl,
                if_pos hr]
              obtain ⟨h1, h2, h3⟩ :=
                burstLoop_nil s.connectionok s.onFlag pass s.pressedkey 0
              dsimp only
              rw [if_neg (by simp [h2])]
              dsimp only
              rw [(keyTail_st_fields _ _ _ _ _ _).2.2.2.2]
              dsimp only
              unfold pkUpd
              rw [charsAt_one]
              dsimp only
              rw [if_neg (by norm_num : ¬ ((0 : Int) = 1)), if_pos rfl]
              rw [h3]
              exact pkWF_burst_net h
            · unfold stepEvent
              rw [if_pos ht1, if_neg hmb, if_pos h99, if_pos hv0, if_neg hl,
                if_neg hr]
              exact keyTail_pk_WF _ _ _ _ _ h
        · unfold stepEvent
          rw [if_pos ht1, if_neg hmb, if_pos h99, if_neg hv0]
          exact keyTail_pk_WF _ _ _ _ _ h
      · unfold stepEvent
        rw [if_pos ht1, if_neg hmb, if_neg h99]
        exact keyTail_pk_WF _ _ _ _ _ h
  · by_cases ht2 : e.type = 2
    · by_cases hcd : e.code = 0 ∨ e.code = 1 ∨ e.code = 2 ∨ e.code = 8
      · unfold stepEvent
        rw [if_neg ht1, if_pos ht2, if_pos hcd]
        dsimp only [takeSend]
        cases hco : s.connectionok
        · exact h
        · exact h
      · unfold stepEvent
        rw [if_neg ht1, if_pos ht2, if_neg hcd]
        exact h
    · unfold stepEvent
      rw [if_neg ht1, if_neg ht2]
      exact h

/-- For the dummy index `u = 1` (modifier keys, the toggle key, mouse
buttons and unknown codes) the tail leaves the whole state unchanged and
reports modifier byte `mod0` over the unchanged `pressedkey`. -/
theorem keyTail_u1 (s : PState) (sr : List Bool) (v : Int) (mod0 : Nat)
    (hshape : shapeOK s.pressedkey = true) (hmk : s.modifierkeys < 65536) :
    keyTail s sr v 0 1 mod0 =
      if s.connectionok then
        if s.onFlag then
          ⟨s, [⟨keybRep mod0 s.pressedkey, (takeSend sr).1⟩], (takeSend sr).2,
            if (takeSend sr).1 then .cont else .disc⟩
        else ⟨s, [], sr, .cont⟩
      else ⟨s, [], sr, .cont⟩ := by
  have hmk' : mkAfter s.modifierkeys 0 v = s.modifierkeys := by
    unfold mkAfter
    have h65 : (0xffff - 0 : Nat) = 65535 := rfl
    rw [h65, and_ffff_eq hmk, Nat.or_zero, ite_self]
  have hpk : pkUpd v (charsAt 1 (layerOf (mkAfter s.modifierkeys 0 v))).2
      s.pressedkey = s.pressedkey := by
    rw [charsAt_one]
    unfold pkUpd
    split
    · exact pkInsert_zero _
    · split
      · exact pkRemove_zero hshape
      · rfl
  have hmod : modAfter s.modifierkeys 0 1 mod0 v = mod0 := by
    unfold modAfter
    rw [charsAt_one]
    simp
  rw [keyTail_eq]
  dsimp only
  rw [hpk, hmod, hmk']

theorem keyTail_outs_muted {s : PState} (sr : List Bool) (v : Int)
    (pm u m0 : Nat) (h : s.onFlag = false) :
    (keyTail s sr v pm u m0).outs = [] := by
  rw [keyTail_eq]
  dsimp only
  split
  · rw [if_neg (by simp [h])]
  · rfl

theorem keyTail_outs_keyb {s : PState} {sr : List Bool} {v : Int}
    {pm u m0 : Nat} :
    ∀ o ∈ (keyTail s sr v pm u m0).outs, o.bytes.getD 1 0 = 2 := by
  rw [keyTail_eq]
  dsimp only
  split
  · split
    · intro o ho
      simp only [List.mem_singleton] at ho
      subst ho
      rfl
    · intro o ho
      simp at ho
  · intro o ho
    simp at ho

theorem burstLoop_muted (conn : Bool) (ps : List (Nat × Nat))
    (pk : List Nat) (m : Nat) (sr : List Bool) :
    (burstLoop conn false ps pk m sr).outs = [] ∧
    (burstLoop conn false ps pk m sr).failed = false ∧
    (burstLoop conn false ps pk m sr).sr = sr := by
  induction ps generalizing pk m with
  | nil => exact ⟨rfl, rfl, rfl⟩
  | cons p ps ih =>
    obtain ⟨h1, h2, h3⟩ := ih (pk.set 0 p.2) p.1
    cases conn with
    | false => exact ⟨rfl, rfl, rfl⟩
    | true => exact ⟨h1, h2, h3⟩

/-- The mouse-button mask update performed for `BTN_*` events (the
`mousebuttons & (0x07-c)` / `| c` lines). -/
def mbAfter (mb code : Nat) (v : Int) : Nat :=
  let c := 1 <<< (code &&& 0x03)
  if v = 1 then (mb &&& (0x07 - c)) ||| c else mb &&& (0x07 - c)

/-! ## Order lemmas for `pressedkey` -/

theorem pkInsert_append {pk : List Nat} {c : Nat}
    (hs : shapeOK pk = true) (hc : c ≠ 0) (hnm : c ∉ pk)
    (hroom : (0 : Nat) ∈ pk) :
    nonzeros (pkInsert pk c) = nonzeros pk ++ [c] := by
  induction pk with
  | nil => simp at hroom
  | cons x xs ih =>
    by_cases h0 : x = 0
    · subst h0
      rw [shapeOK_cons_zero] at hs
      have hi : pkInsert (0 :: xs) c = c :: xs := by simp [pkInsert]
      rw [hi, nonzeros_cons_ne _ hc, nonzeros_cons_zero,
        zeroSuffix_nonzeros hs]
      rfl
    · have hxc : x ≠ c := fun e => hnm (e ▸ List.mem_cons_self x xs)
      rw [shapeOK_cons_ne h0] at hs
      have hnm' : c ∉ xs := fun h2 => hnm (List.mem_cons_of_mem _ h2)
      have hroom' : (0 : Nat) ∈ xs := by
        rcases List.mem_cons.mp hroom with h2 | h2
        · exact absurd h2.symm h0
        · exact h2
      simp only [pkInsert, if_neg h0, if_neg hxc]
      rw [nonzeros_cons_ne _ h0, nonzeros_cons_ne _ h0,
        ih hs hnm' hroom']
      rfl

theorem pkRemove_erase {pk : List Nat} {c : Nat}
    (hs : shapeOK pk = true) (hc : c ≠ 0) :
    nonzeros (pkRemove pk c) = (nonzeros pk).erase c := by
  induction pk with
  | nil => rfl
  | cons x xs ih =>
    by_cases hxc : x = c
    · subst hxc
      have hr : pkRemove (x :: xs) x = xs ++ [0] := by simp [pkRemove]
      rw [hr, nonzeros_append_zero, nonzeros_cons_ne _ (by exact hc),
        List.erase_cons_head]
    · simp only [pkRemove, if_neg hxc]
      by_cases h0 : x = 0
      · subst h0
        rw [shapeOK_cons_zero] at hs
        rw [pkRemove_of_zeroSuffix hs hc, nonzeros_cons_zero,
          zeroSuffix_nonzeros hs]
        rfl
      · rw [shapeOK_cons_ne h0] at hs
        rw [nonzeros_cons_ne _ h0, nonzeros_cons_ne _ h0, ih hs]
        rw [List.erase_cons_tail]
        simp [hxc]

theorem nonzeros_length_le (pk : List Nat) :
    (nonzeros pk).length ≤ pk.length :=
  List.length_filter_le _ _

theorem runEvents_pk_WF (pass : List (Nat × Nat)) (s : PState)
    (es : List Ev) (h : pkWF s.pressedkey) :
    pkWF (runEvents pass s [] es).st.pressedkey := by
  induction es generalizing s with
  | nil => exact h
  | cons e es ih =>
    have hs := stepEvent_pk_WF pass s e h
    have hsr := stepEvent_sr_nil pass s e
    simp only [runEvents]
    rcases hctl : (stepEvent pass s [] e).ctl with _ | _ | c
    · simp only [hctl]
      rw [hsr]
      exact ih _ hs
    · simpa only [hctl] using hs
    · simpa only [hctl] using hs

/-- Layer selection as the amended claim words it: layer 5 whenever
groups 2 and 3 are both active; otherwise layer 4 when groups 1 and 2
are both active; otherwise the highest-numbered active group alone picks
layer 3, 2 or 1; layer 0 with no group active. -/
def layerSpec (mk : Nat) : Nat :=
  if mk &&& 0x0300 ≠ 0 ∧ mk &&& 0x0440 ≠ 0 then 5
  else if mk &&& 0x0022 ≠ 0 ∧ mk &&& 0x0300 ≠ 0 then 4
  else if mk &&& 0x0440 ≠ 0 then 3
  else if mk &&& 0x0300 ≠ 0 then 2
  else if mk &&& 0x0022 ≠ 0 then 1
  else 0

/-- The `EV_REL` branch while connected: one mouse report, built from
the persistent `mousebuttons` and only this event's delta. -/
theorem stepEvent_rel (pass : List (Nat × Nat)) (s : PState)
    (sr : List Bool) (v : Int) (code : Nat)
    (hcd : code = 0 ∨ code = 1 ∨ code = 2 ∨ code = 8)
    (hc : s.connectionok = true) :
    stepEvent pass s sr ⟨2, code, v⟩ =
      ⟨s, [⟨mouseRep (s.mousebuttons &&& 0x07) (if code = 0 then v else 0)
        (if code = 1 then v else 0) (if 2 ≤ code then v else 0),
        (takeSend sr).1⟩], (takeSend sr).2,
        if (takeSend sr).1 then .cont else .disc⟩ := by
  unfold stepEvent
  dsimp only
  rw [if_neg (by norm_num : ¬ ((2 : Nat) = 1)), if_pos rfl, if_pos hcd,
    if_pos hc]

/-- The `BTN_*` branch while connected: the mouse report goes out
first, then the event falls through to the keyboard tail. -/
theorem stepEvent_btn (pass : List (Nat × Nat)) (s : PState)
    (sr : List Bool) (v : Int) (code : Nat)
    (hcd : code = 272 ∨ code = 273 ∨ code = 274)
    (hc : s.connectionok = true) :
    stepEvent pass s sr ⟨1, code, v⟩ =
      (if (takeSend sr).1 then
        ⟨(keyTail { s with mousebuttons := mbAfter s.mousebuttons code v }
            (takeSend sr).2 v 0 1 0).st,
          ⟨mouseRep (mbAfter s.mousebuttons code v &&& 0x07) 0 0 0, true⟩ ::
            (keyTail { s with mousebuttons := mbAfter s.mousebuttons code v }
              (takeSend sr).2 v 0 1 0).outs,
          (keyTail { s with mousebuttons := mbAfter s.mousebuttons code v }
            (takeSend sr).2 v 0 1 0).sr,
          (keyTail { s with mousebuttons := mbAfter s.mousebuttons code v }
            (takeSend sr).2 v 0 1 0).ctl⟩
      else ⟨{ s with mousebuttons := mbAfter s.mousebuttons code v },
        [⟨mouseRep (mbAfter s.mousebuttons code v &&& 0x07) 0 0 0, false⟩],
        (takeSend sr).2, .disc⟩) := by
  unfold stepEvent mbAfter
  dsimp only
  rw [if_pos rfl, if_pos hcd, if_pos hc]

/-! ## Claim theorems -/

/-- C1 (amended): for every run of keyboard events in which every
attempted report transmission succeeds (empty oracle), `pressedkey`
keeps its well-formedness: 8 slots, no duplicate non-zero usage, held
usages a contiguous prefix; a press appends the new usage at the end of
the held prefix, a release erases exactly the first occurrence,
shifting later entries left; the set is all zeros at program start and
is reset to all zeros the instant a session becomes connected; the
number of held usages never exceeds 8. -/
theorem C1_pressedkey_invariants :
    (∀ pass s es, pkWF s.pressedkey →
      pkWF (runEvents pass s [] es).st.pressedkey) ∧
    pkWF initState.pressedkey ∧
    (∀ s, (connectReset s).pressedkey = List.replicate 8 0) ∧
    (∀ pk, pkWF pk → (nonzeros pk).length ≤ 8) ∧
    (∀ pk c, shapeOK pk = true → c ≠ 0 → c ∉ pk → (0 : Nat) ∈ pk →
      nonzeros (pkInsert pk c) = nonzeros pk ++ [c]) ∧
    (∀ pk c, shapeOK pk = true → c ≠ 0 →
      nonzeros (pkRemove pk c) = (nonzeros pk).erase c) := by
  refine ⟨runEvents_pk_WF, by decide, fun s => rfl, ?_, ?_, ?_⟩
  · intro pk h
    calc (nonzeros pk).length ≤ pk.length := nonzeros_length_le pk
    _ = 8 := h.1
  · intro pk c h1 h2 h3 h4
    exact pkInsert_append h1 h2 h3 h4
  · intro pk c h1 h2
    exact pkRemove_erase h1 h2

/-- Witness for C1: a concrete press/press/release run stays
well-formed, and a concrete insert appends at the end. -/
theorem C1_pressedkey_invariants_witness :
    pkWF (runEvents [] (connectReset initState) []
      [⟨1, 30, 1⟩, ⟨1, 48, 1⟩, ⟨1, 30, 0⟩]).st.pressedkey ∧
    nonzeros (pkInsert [0x18, 0, 0, 0, 0, 0, 0, 0] 0x1C) =
      nonzeros [0x18, 0, 0, 0, 0, 0, 0, 0] ++ [0x1C] :=
  ⟨C1_pressedkey_invariants.1 [] (connectReset initState)
      [⟨1, 30, 1⟩, ⟨1, 48, 1⟩, ⟨1, 30, 0⟩] (by decide),
   C1_pressedkey_invariants.2.2.2.2.1 [0x18, 0, 0, 0, 0, 0, 0, 0] 0x1C
      (by decide) (by decide) (by decide) (by decide)⟩

/-- C1 (counterexample to the claim as stated): while connected and
unmuted, hold two keys (usages 0x04, 0x16), hold RCtrl and release the
PRINT key; the password burst (credential usage 0x16) aborts on a send
failure with `pressedkey[0]` still overwritten, leaving the duplicate
non-zero usage 0x16 twice in `pressedkey`. -/
theorem C1_pressedkey_counterexample :
    (runEvents [(0x00, 0x16)] (connectReset initState)
        [true, true, true, true, false]
        [⟨1, 99, 0⟩, ⟨1, 32, 1⟩, ⟨1, 35, 1⟩, ⟨1, 97, 1⟩,
          ⟨1, 99, 0⟩]).st.pressedkey = [0x16, 0x16, 0, 0, 0, 0, 0, 0] ∧
    ¬ (nonzeros (runEvents [(0x00, 0x16)] (connectReset initState)
        [true, true, true, true, false]
        [⟨1, 99, 0⟩, ⟨1, 32, 1⟩, ⟨1, 35, 1⟩, ⟨1, 97, 1⟩,
          ⟨1, 99, 0⟩]).st.pressedkey).Nodup := by
  decide

/-- C2 (counterexample to the claim as stated): `modifierkeys = 0x42`
holds exactly selector groups 1 (`0x0022`) and 3 (`0x0440`); the claim
says combined layer 5, but the code resolves layer 3 (layer 5 needs
groups 2 and 3). -/
theorem C2_layer_counterexample :
    (0x42 &&& 0x0022 ≠ 0) ∧ (0x42 &&& 0x0300 = 0) ∧
    (0x42 &&& 0x0440 ≠ 0) ∧ layerOf 0x42 = 3 ∧ layerOf 0x42 ≠ 5 := by
  decide

/-- C2 (amended): the active layer is a pure function `layerOf` of
`modifierkeys` alone; layer 5 is picked when groups 2 and 3 are both
active (taking precedence over everything), layer 4 when groups 1 and 2
are both active (but not 2 and 3), otherwise the highest-numbered
active group picks layer 3, 2 or 1, and layer 0 with no selector
bits held. -/
theorem C2_layer_resolution :
    (∀ mk, layerOf mk = layerSpec mk) ∧
    (∀ mk, mk &&& 0x0022 = 0 → mk &&& 0x0300 = 0 → mk &&& 0x0440 = 0 →
      layerOf mk = 0) := by
  constructor
  · intro mk
    unfold layerOf layerSpec layermodOf
    by_cases h1 : mk &&& 0x0022 = 0 <;> by_cases h2 : mk &&& 0x0300 = 0 <;>
      by_cases h3 : mk &&& 0x0440 = 0 <;>
      simp [h1, h2, h3] <;> decide
  · intro mk h1 h2 h3
    unfold layerOf layermodOf
    simp [h1, h2, h3]

/-- Witness for C2: with only real modifiers held (LCtrl bits 0x8001)
no selector group is active and the layer is 0; and a concrete
combined-layer case agrees with the spec-side description. -/
theorem C2_layer_resolution_witness :
    layerOf 0x8001 = 0 ∧ layerOf 0x0140 = layerSpec 0x0140 :=
  ⟨C2_layer_resolution.2 0x8001 (by decide) (by decide) (by decide),
   C2_layer_resolution.1 0x0140⟩

/-- C3 (counterexample to the claim as stated): raw code 183 (KEY_F13)
is outside the known set (dense index stays 1, no modifier bit), yet
while connected and unmuted the translator emits and sends a keyboard
report for it. -/
theorem C3_unknown_counterexample :
    keyU 183 = 1 ∧ pressedmodOf 183 = 0 ∧
    (stepEvent [] { connectReset initState with onFlag := true } []
      ⟨1, 183, 1⟩).outs =
      [⟨keybRep 0 (List.replicate 8 0), true⟩] ∧
    (stepEvent [] { connectReset initState with onFlag := true } []
      ⟨1, 183, 1⟩).outs ≠ [] := by
  decide

/-- C3 (amended): a keyboard event whose raw code is outside the known
set leaves the whole translator state unchanged, but still emits one
KeyboardReport carrying modifier byte 0 and the unchanged
`pressedkey`, transmitted exactly when the session is connected and
the mute toggle is on; the translator does not exit on such an
event. -/
theorem C3_unknown_code (pass : List (Nat × Nat)) (s : PState)
    (sr : List Bool) (e : Ev) (ht : e.type = 1)
    (hmb : ¬(e.code = 272 ∨ e.code = 273 ∨ e.code = 274))
    (h99 : ¬ e.code = 99) (hpm : pressedmodOf e.code = 0)
    (hku : keyU e.code = 1) (hshape : shapeOK s.pressedkey = true)
    (hmk : s.modifierkeys < 65536) :
    (stepEvent pass s sr e).st = s ∧
    (stepEvent pass s sr e).outs.map Send.bytes =
      (if s.connectionok ∧ s.onFlag then [keybRep 0 s.pressedkey]
       else []) ∧
    ((stepEvent pass s sr e).ctl = .cont ∨
      (stepEvent pass s sr e).ctl = .disc) := by
  have hstep : stepEvent pass s sr e = keyTail s sr e.value 0 1 0 := by
    unfold stepEvent
    rw [if_pos ht, if_neg hmb, if_neg h99, hpm, hku]
  rw [hstep, keyTail_u1 s sr e.value 0 hshape hmk]
  by_cases hc : s.connectionok = true
  · by_cases ho : s.onFlag = true
    · rw [if_pos hc, if_pos ho]
      refine ⟨rfl, ?_, ?_⟩
      · simp [hc, ho]
      · dsimp only
        cases htk : (takeSend sr).1
        · exact Or.inr (by simp [htk])
        · exact Or.inl (by simp [htk])
    · rw [if_pos hc, if_neg ho]
      exact ⟨rfl, by simp [hc, ho], Or.inl rfl⟩
  · rw [if_neg hc]
    exact ⟨rfl, by simp [hc], Or.inl rfl⟩

/-- Witness for C3: code 183 while disconnected leaves the state
unchanged and sends nothing. -/
theorem C3_unknown_code_witness :
    (stepEvent [] initState [] ⟨1, 183, 1⟩).st = initState ∧
    (stepEvent [] initState [] ⟨1, 183, 1⟩).outs.map Send.bytes =
      (if initState.connectionok ∧ initState.onFlag then
        [keybRep 0 initState.pressedkey] else []) ∧
    ((stepEvent [] initState [] ⟨1, 183, 1⟩).ctl = .cont ∨
      (stepEvent [] initState [] ⟨1, 183, 1⟩).ctl = .disc) :=
  C3_unknown_code [] initState [] ⟨1, 183, 1⟩ rfl (by decide) (by decide)
    (by decide) (by decide) (by decide) (by decide)

/-- C4 (counterexample to the claim as stated): releasing PRINT with
LCtrl and LAlt both held (modifierkeys 0x8005) makes the translator
exit the process immediately (`exit(0)`), rather than moving the
session to Closing and shutting down after teardown: the result is
`exited 0`, not a disconnect, and the end-of-`main` teardown never
runs. -/
theorem C4_terminate_counterexample :
    (stepEvent [] { connectReset initState with modifierkeys := 0x8005 }
      [] ⟨1, 99, 0⟩).ctl = Ctl.exited 0 ∧
    (stepEvent [] { connectReset initState with modifierkeys := 0x8005 }
      [] ⟨1, 99, 0⟩).ctl ≠ Ctl.disc ∧
    (mainOnParseResult (Ctl.exited 0)).teardownDone = false ∧
    (mainOnParseResult (Ctl.exited 0)).running = false := by
  decide

/-- C4 (amended): on release of the PRINT key while LCtrl is held, a
final all-keys-released KeyboardReport is handed to `send` when
connected (its result is ignored), and the process then terminates at
once with exit status 0, regardless of which other modifiers are held;
the end-of-`main` teardown (advertisement unregistration, input-source
closing) is skipped. -/
theorem C4_terminate_key (pass : List (Nat × Nat)) (s : PState)
    (sr : List Bool) (hl : s.modifierkeys &&& 0x1 = 0x1) :
    (stepEvent pass s sr ⟨1, 99, 0⟩).ctl = .exited 0 ∧
    (stepEvent pass s sr ⟨1, 99, 0⟩).outs.map Send.bytes =
      (if s.connectionok then [keybRep 0 (List.replicate 8 0)] else []) ∧
    (stepEvent pass s sr ⟨1, 99, 0⟩).st = s ∧
    mainOnParseResult (.exited 0) = ⟨false, false, false, some 0, false⟩ := by
  have h1 : stepEvent pass s sr ⟨1, 99, 0⟩ =
      if s.connectionok then
        ⟨s, [⟨keybRep 0 (List.replicate 8 0), (takeSend sr).1⟩],
          (takeSend sr).2, .exited 0⟩
      else ⟨s, [], sr, .exited 0⟩ := by
    unfold stepEvent
    norm_num [hl]
  rw [h1]
  by_cases hc : s.connectionok = true
  · rw [if_pos hc, if_pos hc]
    exact ⟨rfl, by simp, rfl, rfl⟩
  · rw [if_neg hc, if_neg hc]
    exact ⟨rfl, by simp, rfl, rfl⟩

/-- Witness for C4: with only LCtrl held and a connected session, the
event exits with status 0 and the final empty report is the one byte
sequence handed to `send`. -/
theorem C4_terminate_key_witness :
    (stepEvent [] { connectReset initState with modifierkeys := 0x8001 }
      [] ⟨1, 99, 0⟩).ctl = Ctl.exited 0 ∧
    (stepEvent [] { connectReset initState with modifierkeys := 0x8001 }
      [] ⟨1, 99, 0⟩).outs.map Send.bytes =
      (if ({ connectReset initState with
        modifierkeys := 0x8001 } : PState).connectionok then
        [keybRep 0 (List.replicate 8 0)] else []) :=
  ⟨(C4_terminate_key [] _ [] (by decide)).1,
   (C4_terminate_key [] _ [] (by decide)).2.1⟩

/-- C5 (counterexample to the claim as stated): with LCtrl (real
modifier, low-byte bit 0x01) and RAlt (layer-3 selector) held, pressing
KEY_B hits the unmapped sentinel `chars[5][3] = (0,0)`; the emitted
report carries modifier byte 0, not the literal held modifier bits
(low byte 0x41, non-zero). -/
theorem C5_sentinel_counterexample :
    ((runEvents [] (connectReset initState) []
        [⟨1, 99, 0⟩, ⟨1, 29, 1⟩, ⟨1, 100, 1⟩, ⟨1, 48, 1⟩]).outs.map
          Send.bytes).getLast? = some (keybRep 0 (List.replicate 8 0)) ∧
    (runEvents [] (connectReset initState) []
        [⟨1, 99, 0⟩, ⟨1, 29, 1⟩, ⟨1, 100, 1⟩, ⟨1, 48, 1⟩]).st.modifierkeys
      &&& 0xff = 0x41 ∧
    (charsAt (keyU 48) (layerOf 0x8041)).2 = 0 ∧ (0x41 : Nat) ≠ 0 := by
  decide

/-- C5 (amended): when the table lookup yields the unmapped sentinel,
`pressedkey` is unchanged by the event, and the emitted report's
modifier byte is the low byte of the updated modifier state only when
the event's own key is a real output modifier (`pressedmod` flag
0x8000); for every other key it is 0, regardless of which modifiers
are held. -/
theorem C5_unmapped_sentinel (pass : List (Nat × Nat)) (s : PState)
    (sr : List Bool) (e : Ev) (ht : e.type = 1)
    (hmb : ¬(e.code = 272 ∨ e.code = 273 ∨ e.code = 274))
    (h99 : ¬ e.code = 99)
    (hsent : (charsAt (keyU e.code)
      (layerOf (mkAfter s.modifierkeys (pressedmodOf e.code) e.value))).2
      = 0)
    (hshape : shapeOK s.pressedkey = true) :
    (stepEvent pass s sr e).st.pressedkey = s.pressedkey ∧
    (stepEvent pass s sr e).outs.map Send.bytes =
      (if s.connectionok ∧ s.onFlag then
        [keybRep (if pressedmodOf e.code &&& 0x8000 ≠ 0 then
            mkAfter s.modifierkeys (pressedmodOf e.code) e.value &&& 0xff
          else 0) s.pressedkey]
       else []) := by
  have hstep : stepEvent pass s sr e =
      keyTail s sr e.value (pressedmodOf e.code) (keyU e.code) 0 := by
    unfold stepEvent
    rw [if_pos ht, if_neg hmb, if_neg h99]
  have hpk : pkUpd e.value (charsAt (keyU e.code)
      (layerOf (mkAfter s.modifierkeys (pressedmodOf e.code) e.value))).2
      s.pressedkey = s.pressedkey := by
    rw [hsent]
    unfold pkUpd
    split
    · exact pkInsert_zero _
    · split
      · exact pkRemove_zero hshape
      · rfl
  have hmod : modAfter s.modifierkeys (pressedmodOf e.code) (keyU e.code) 0
      e.value =
      (if pressedmodOf e.code &&& 0x8000 ≠ 0 then
        mkAfter s.modifierkeys (pressedmodOf e.code) e.value &&& 0xff
      else 0) := by
    unfold modAfter
    rw [hsent]
    simp
  rw [hstep, keyTail_eq]
  dsimp only
  rw [hpk, hmod]
  by_cases hc : s.connectionok = true
  · by_cases ho : s.onFlag = true
    · rw [if_pos hc, if_pos ho]
      exact ⟨rfl, by simp [hc, ho]⟩
    · rw [if_pos hc, if_neg ho]
      exact ⟨rfl, by simp [hc, ho]⟩
  · rw [if_neg hc]
    exact ⟨rfl, by simp [hc]⟩

/-- Witness for C5: the concrete sentinel case of the counterexample
run (KEY_B on layer 3), applied at the state with LCtrl and RAlt
held. -/
theorem C5_unmapped_sentinel_witness :
    (stepEvent [] { connectReset initState with
      modifierkeys := 0x8041
      onFlag := true } [] ⟨1, 48, 1⟩).st.pressedkey =
      List.replicate 8 0 ∧
    (stepEvent [] { connectReset initState with
      modifierkeys := 0x8041
      onFlag := true } [] ⟨1, 48, 1⟩).outs.map Send.bytes =
      [keybRep 0 (List.replicate 8 0)] := by
  have h := C5_unmapped_sentinel [] { connectReset initState with
      modifierkeys := 0x8041
      onFlag := true } [] ⟨1, 48, 1⟩ rfl
    (by decide) (by decide) (by decide) (by decide)
  exact ⟨h.1, by simpa using h.2⟩

/-- C6 (counterexample to the claim as stated): the final
all-keys-released report of the LCtrl+PRINT path is a transmission
attempted while connected whose failure is ignored: the send fails
(`ok = false`) yet the process exits instead of returning the session
to Idle and continuing. -/
theorem C6_send_counterexample :
    (stepEvent [] { connectReset initState with
        modifierkeys := 0x8001
        onFlag := true } [false] ⟨1, 99, 0⟩).outs =
      [⟨keybRep 0 (List.replicate 8 0), false⟩] ∧
    (stepEvent [] { connectReset initState with
        modifierkeys := 0x8001
        onFlag := true } [false] ⟨1, 99, 0⟩).ctl = Ctl.exited 0 ∧
    (stepEvent [] { connectReset initState with
        modifierkeys := 0x8001
        onFlag := true } [false] ⟨1, 99, 0⟩).ctl ≠ Ctl.disc ∧
    (mainOnParseResult (Ctl.exited 0)).running = false := by
  decide

/-- C6 (amended): for every event other than the LCtrl+PRINT
terminate combination, any attempted report transmission that fails
makes `parse_events` return `-1` at once, and `main` then leaves the
session loop, closes both channel descriptors and returns to Idle with
the process still running. -/
theorem C6_send_failure (pass : List (Nat × Nat)) (s : PState)
    (sr : List Bool) (e : Ev)
    (hne : ¬(e.type = 1 ∧ e.code = 99 ∧ e.value = 0 ∧
      s.modifierkeys &&& 0x1 = 0x1)) :
    (∀ o ∈ (stepEvent pass s sr e).outs, o.ok = false →
      (stepEvent pass s sr e).ctl = .disc) ∧
    mainOnParseResult .disc = ⟨false, false, true, none, false⟩ := by
  refine ⟨?_, rfl⟩
  intro o ho hbad
  by_cases ht1 : e.type = 1
  · by_cases hmb : e.code = 272 ∨ e.code = 273 ∨ e.code = 274
    · unfold stepEvent at ho ⊢
      rw [if_pos ht1, if_pos hmb] at ho ⊢
      dsimp only at ho ⊢
      by_cases hc : s.connectionok = true
      · rw [if_pos hc] at ho ⊢
        by_cases htk : (takeSend sr).1 = true
        · rw [if_pos htk] at ho ⊢
          dsimp only at ho ⊢
          rcases List.mem_cons.mp ho with rfl | ho2
          · simp at hbad
          · exact keyTail_outs_ok ho2 hbad
        · rw [if_neg htk] at ho ⊢
      · rw [if_neg hc] at ho ⊢
        exact keyTail_outs_ok ho hbad
    · by_cases h99 : e.code = 99
      · by_cases hv0 : e.value = 0
        · by_cases hl : s.modifierkeys &&& 0x1 = 0x1
          · exact absurd ⟨ht1, h99, hv0, hl⟩ hne
          · by_cases hr : s.modifierkeys &&& 0x10 = 0x10
            · unfold stepEvent at ho ⊢
              rw [if_pos ht1, if_neg hmb, if_pos h99, if_pos hv0,
                if_neg hl, if_pos hr] at ho ⊢
              dsimp only at ho ⊢
              by_cases hf : (burstLoop s.connectionok s.onFlag pass
                  s.pressedkey 0 sr).failed = true
              · rw [if_pos hf] at ho ⊢
              · rw [if_neg hf] at ho ⊢
                dsimp only at ho ⊢
                rcases List.mem_append.mp ho with ho2 | ho2
                · have := burstLoop_outs_ok
                    (Bool.not_eq_true _ ▸ hf) o ho2
                  rw [this] at hbad
                  exact absurd hbad (by simp)
                · exact keyTail_outs_ok ho2 hbad
            · unfold stepEvent at ho ⊢
              rw [if_pos ht1, if_neg hmb, if_pos h99, if_pos hv0,
                if_neg hl, if_neg hr] at ho ⊢
              exact keyTail_outs_ok ho hbad
        · unfold stepEvent at ho ⊢
          rw [if_pos ht1, if_neg hmb, if_pos h99, if_neg hv0] at ho ⊢
          exact keyTail_outs_ok ho hbad
      · unfold stepEvent at ho ⊢
        rw [if_pos ht1, if_neg hmb, if_neg h99] at ho ⊢
        exact keyTail_outs_ok ho hbad
  · by_cases ht2 : e.type = 2
    · by_cases hcd : e.code = 0 ∨ e.code = 1 ∨ e.code = 2 ∨ e.code = 8
      · unfold stepEvent at ho ⊢
        rw [if_neg ht1, if_pos ht2, if_pos hcd] at ho ⊢
        dsimp only at ho ⊢
        by_cases hc : s.connectionok = true
        · rw [if_pos hc] at ho ⊢
          simp only [List.mem_singleton] at ho
          subst ho
          simp only at hbad
          simp [hbad]
        · rw [if_neg hc] at ho
          simp at ho
      · unfold stepEvent at ho
        rw [if_neg ht1, if_pos ht2, if_neg hcd] at ho
        simp at ho
    · unfold stepEvent at ho
      rw [if_neg ht1, if_neg ht2] at ho
      simp at ho

/-- Witness for C6: a failed relative-motion send while connected
returns `-1` and `main` goes back to Idle, channels closed, process
running. -/
theorem C6_send_failure_witness :
    (stepEvent [] (connectReset initState) [false] ⟨2, 0, 5⟩).ctl =
      Ctl.disc ∧
    mainOnParseResult .disc = ⟨false, false, true, none, false⟩ :=
  ⟨(C6_send_failure [] (connectReset initState) [false] ⟨2, 0, 5⟩
      (by decide)).1 ⟨mouseRep 0 5 0 0, false⟩ (by decide) rfl,
   (C6_send_failure [] (connectReset initState) [false] ⟨2, 0, 5⟩
      (by decide)).2⟩

/-- C7: every mouse-button or known relative-axis event while connected
yields exactly one MouseReport, built from the post-update state:
the button mask accumulates press/release transitions and is stored
back (persisting across events), axis fields carry only this event's
delta with every untouched axis reported as zero, and the axis report
depends on nothing but the persistent button mask and the event
itself. -/
theorem C7_mouse_report_shape :
    (∀ pass (s : PState) sr (v : Int) code,
      (code = 272 ∨ code = 273 ∨ code = 274) →
      s.connectionok = true →
      ((stepEvent pass s sr ⟨1, code, v⟩).outs.map Send.bytes).head? =
        some (mouseRep (mbAfter s.mousebuttons code v &&& 0x07) 0 0 0) ∧
      (stepEvent pass s sr ⟨1, code, v⟩).st.mousebuttons =
        mbAfter s.mousebuttons code v ∧
      ((stepEvent pass s sr ⟨1, code, v⟩).outs.filter
        (fun o => o.bytes.getD 1 0 = 1)).length = 1) ∧
    (∀ pass (s : PState) sr (v : Int) code,
      (code = 0 ∨ code = 1 ∨ code = 2 ∨ code = 8) →
      s.connectionok = true →
      (stepEvent pass s sr ⟨2, code, v⟩).outs.map Send.bytes =
        [mouseRep (s.mousebuttons &&& 0x07) (if code = 0 then v else 0)
          (if code = 1 then v else 0) (if 2 ≤ code then v else 0)] ∧
      (stepEvent pass s sr ⟨2, code, v⟩).st = s) ∧
    (∀ pass (s1 s2 : PState) sr (v : Int) code,
      (code = 0 ∨ code = 1 ∨ code = 2 ∨ code = 8) →
      s1.connectionok = true → s2.connectionok = true →
      s1.mousebuttons = s2.mousebuttons →
      (stepEvent pass s1 sr ⟨2, code, v⟩).outs.map Send.bytes =
      (stepEvent pass s2 sr ⟨2, code, v⟩).outs.map Send.bytes) := by
  refine ⟨?_, ?_, ?_⟩
  · intro pass s sr v code hcd hc
    rw [stepEvent_btn pass s sr v code hcd hc]
    by_cases htk : (takeSend sr).1 = true
    · rw [if_pos htk]
      refine ⟨rfl, (keyTail_st_fields _ _ _ _ _ _).1, ?_⟩
      dsimp only
      rw [List.filter_cons_of_pos (by rfl)]
      have hnil : ((keyTail
          { s with mousebuttons := mbAfter s.mousebuttons code v }
          (takeSend sr).2 v 0 1 0).outs.filter
          (fun o => o.bytes.getD 1 0 = 1)) = [] := by
        rw [List.filter_eq_nil_iff]
        intro o ho
        have h2 := keyTail_outs_keyb o ho
        simp only [decide_eq_true_eq]
        omega
      rw [hnil]
      rfl
    · rw [if_neg htk]
      exact ⟨rfl, rfl, rfl⟩
  · intro pass s sr v code hcd hc
    rw [stepEvent_rel pass s sr v code hcd hc]
    exact ⟨rfl, rfl⟩
  · intro pass s1 s2 sr v code hcd hc1 hc2 hmbeq
    rw [stepEvent_rel pass s1 sr v code hcd hc1,
      stepEvent_rel pass s2 sr v code hcd hc2, hmbeq]

/-- Witness for C7: a concrete left-button press and a concrete X-axis
move while connected. -/
theorem C7_mouse_report_shape_witness :
    ((stepEvent [] (connectReset initState) [] ⟨1, 272, 1⟩).outs.map
      Send.bytes).head? = some (mouseRep 1 0 0 0) ∧
    (stepEvent [] (connectReset initState) [] ⟨2, 0, 7⟩).outs.map
      Send.bytes = [mouseRep 0 7 0 0] := by
  have h1 := (C7_mouse_report_shape.1 [] (connectReset initState) [] 1 272
    (by norm_num) rfl).1
  have h2 := (C7_mouse_report_shape.2.1 [] (connectReset initState) [] 7 0
    (by norm_num) rfl).1
  constructor
  · simpa using h1
  · simpa using h2

/-- C8: two independent instances of the translation pipeline started
in the same freshly-connected initial state produce byte-identical
outgoing report streams when fed the identical raw event sequence and
identical send outcomes. -/
theorem C8_determinism (pass : List (Nat × Nat)) (evs1 evs2 : List Ev)
    (sr1 sr2 : List Bool) (hev : evs1 = evs2) (hsr : sr1 = sr2) :
    (runEvents pass (connectReset initState) sr1 evs1).outs.map
      Send.bytes =
    (runEvents pass (connectReset initState) sr2 evs2).outs.map
      Send.bytes := by
  rw [hev, hsr]

/-- Witness for C8: a concrete replay. -/
theorem C8_determinism_witness :
    (runEvents [] (connectReset initState) []
      [⟨1, 99, 0⟩, ⟨1, 30, 1⟩]).outs.map Send.bytes =
    (runEvents [] (connectReset initState) []
      [⟨1, 99, 0⟩, ⟨1, 30, 1⟩]).outs.map Send.bytes :=
  C8_determinism [] [⟨1, 99, 0⟩, ⟨1, 30, 1⟩] [⟨1, 99, 0⟩, ⟨1, 30, 1⟩]
    [] [] rfl rfl

/-- A mouse report never carries the keyboard report id. -/
theorem mouseRep_ne_keyb (btn : Nat) (x y z : Int) :
    (mouseRep btn x y z).getD 1 0 ≠ 2 := by
  intro h
  have h12 : (1 : Nat) = 2 := h
  exact absurd h12 (by norm_num)

/-- While the mute flag stays off across an event and the event does
not exit the process, no keyboard report (report id 2) is handed to
`send`. -/
theorem stepEvent_muted_no_keyb (pass : List (Nat × Nat)) (s : PState)
    (sr : List Bool) (e : Ev) (hmute : s.onFlag = false)
    (hex : (stepEvent pass s sr e).ctl ≠ .exited 0)
    (hstay : (stepEvent pass s sr e).st.onFlag = false) :
    ∀ o ∈ (stepEvent pass s sr e).outs, o.bytes.getD 1 0 ≠ 2 := by
  intro o ho
  by_cases ht1 : e.type = 1
  · by_cases hmb : e.code = 272 ∨ e.code = 273 ∨ e.code = 274
    · unfold stepEvent at ho
      rw [if_pos ht1, if_pos hmb] at ho
      dsimp only at ho
      by_cases hc : s.connectionok = true
      · rw [if_pos hc] at ho
        by_cases htk : (takeSend sr).1 = true
        · rw [if_pos htk] at ho
          dsimp only at ho
          rcases List.mem_cons.mp ho with rfl | ho2
          · exact mouseRep_ne_keyb _ _ _ _
          · rw [keyTail_outs_muted _ _ _ _ _ (by exact hmute)] at ho2
            simp at ho2
        · rw [if_neg htk] at ho
          simp only [List.mem_singleton] at ho
          subst ho
          exact mouseRep_ne_keyb _ _ _ _
      · rw [if_neg hc] at ho
        rw [keyTail_outs_muted _ _ _ _ _ (by exact hmute)] at ho
        simp at ho
    · by_cases h99 : e.code = 99
      · by_cases hv0 : e.value = 0
        · by_cases hl : s.modifierkeys &&& 0x1 = 0x1
          · exfalso
            apply hex
            unfold stepEvent
            rw [if_pos ht1, if_neg hmb, if_pos h99, if_pos hv0, if_pos hl]
            dsimp only
            by_cases hc : s.connectionok = true
            · rw [if_pos hc]
            · rw [if_neg hc]
          · by_cases hr : s.modifierkeys &&& 0x10 = 0x10
            · unfold stepEvent at ho
              rw [if_pos ht1, if_neg hmb, if_pos h99, if_pos hv0,
                if_neg hl, if_pos hr, hmute] at ho
              obtain ⟨hbo, hbf, hbs⟩ :=
                burstLoop_muted s.connectionok pass s.pressedkey 0 sr
              rw [if_neg (by simp [hbf])] at ho
              dsimp only at ho
              rw [hbo] at ho
              rw [keyTail_outs_muted _ _ _ _ _ rfl] at ho
              simp at ho
            · -- plain toggle: the step un-mutes, contradicting hstay
              exfalso
              have hT : (stepEvent pass s sr e).st.onFlag = true := by
                unfold stepEvent
                rw [if_pos ht1, if_neg hmb, if_pos h99, if_pos hv0,
                  if_neg hl, if_neg hr]
                rw [(keyTail_st_fields _ _ _ _ _ _).2.1]
                simp [hmute]
              rw [hstay] at hT
              exact Bool.false_ne_true hT
        · unfold stepEvent at ho
          rw [if_pos ht1, if_neg hmb, if_pos h99, if_neg hv0] at ho
          rw [keyTail_outs_muted _ _ _ _ _ hmute] at ho
          simp at ho
      · unfold stepEvent at ho
        rw [if_pos ht1, if_neg hmb, if_neg h99] at ho
        rw [keyTail_outs_muted _ _ _ _ _ hmute] at ho
        simp at ho
  · by_cases ht2 : e.type = 2
    · by_cases hcd : e.code = 0 ∨ e.code = 1 ∨ e.code = 2 ∨ e.code = 8
      · unfold stepEvent at ho
        rw [if_neg ht1, if_pos ht2, if_pos hcd] at ho
        dsimp only at ho
        by_cases hc : s.connectionok = true
        · rw [if_pos hc] at ho
          simp only [List.mem_singleton] at ho
          subst ho
          exact mouseRep_ne_keyb _ _ _ _
        · rw [if_neg hc] at ho
          simp at ho
      · unfold stepEvent at ho
        rw [if_neg ht1, if_pos ht2, if_neg hcd] at ho
        simp at ho
    · unfold stepEvent at ho
      rw [if_neg ht1, if_neg ht2] at ho
      simp at ho

/-- Releasing PRINT with neither Ctrl bit held flips the mute
toggle. -/
theorem stepEvent_toggle (pass : List (Nat × Nat)) (s : PState)
    (sr : List Bool) (hl : ¬ s.modifierkeys &&& 0x1 = 0x1)
    (hr : ¬ s.modifierkeys &&& 0x10 = 0x10) :
    (stepEvent pass s sr ⟨1, 99, 0⟩).st.onFlag = ! s.onFlag := by
  unfold stepEvent
  dsimp only
  rw [if_pos rfl, if_neg (by norm_num), if_pos rfl, if_pos rfl,
    if_neg hl, if_neg hr]
  rw [(keyTail_st_fields _ _ _ _ _ _).2.1]

/-- C9 (counterexample to the claim as stated): from program start
(muted), release the toggle key once with LShift held — a modifier is
held, so by the claim the translator should stay muted; yet the code
unmutes (it only checks the two Ctrl bits) and ordinary keyboard
reports are transmitted from then on. -/
theorem C9_mute_counterexample :
    (runEvents [] (connectReset initState) []
      [⟨1, 42, 1⟩, ⟨1, 99, 0⟩, ⟨1, 30, 1⟩]).outs.map Send.bytes =
      [keybRep 0 (List.replicate 8 0),
        keybRep 2 [0x18, 0, 0, 0, 0, 0, 0, 0]] ∧
    (runEvents [] (connectReset initState) []
      [⟨1, 42, 1⟩]).st.modifierkeys = 0x02 ∧ (0x02 : Nat) ≠ 0 := by
  decide

/-- C9 (amended): the mute toggle starts muted (`on = 0`); while it is
off and stays off across an event that does not exit the process, no
KeyboardReport is handed to `send` — even while connected; releasing
the toggle key with neither the LCtrl bit nor the RCtrl bit held flips
it (other held modifiers do not block the flip); and translation still
happens while muted: for ordinary key events the updated `pressedkey`
and `modifierkeys` are the same functions of the previous state and
the event, with the mute flag nowhere involved. -/
theorem C9_mute_gate :
    initState.onFlag = false ∧
    (∀ pass s sr e, s.onFlag = false →
      (stepEvent pass s sr e).ctl ≠ .exited 0 →
      (stepEvent pass s sr e).st.onFlag = false →
      ∀ o ∈ (stepEvent pass s sr e).outs, o.bytes.getD 1 0 ≠ 2) ∧
    (∀ pass s sr, ¬ s.modifierkeys &&& 0x1 = 0x1 →
      ¬ s.modifierkeys &&& 0x10 = 0x10 →
      (stepEvent pass s sr ⟨1, 99, 0⟩).st.onFlag = ! s.onFlag) ∧
    (∀ pass (s : PState) sr e, e.type = 1 →
      ¬(e.code = 272 ∨ e.code = 273 ∨ e.code = 274) → ¬ e.code = 99 →
      (stepEvent pass s sr e).st.pressedkey =
        pkUpd e.value (charsAt (keyU e.code)
          (layerOf (mkAfter s.modifierkeys (pressedmodOf e.code)
            e.value))).2 s.pressedkey ∧
      (stepEvent pass s sr e).st.modifierkeys =
        mkAfter s.modifierkeys (pressedmodOf e.code) e.value) := by
  refine ⟨rfl, stepEvent_muted_no_keyb, stepEvent_toggle, ?_⟩
  intro pass s sr e ht hmb h99
  have hstep : stepEvent pass s sr e =
      keyTail s sr e.value (pressedmodOf e.code) (keyU e.code) 0 := by
    unfold stepEvent
    rw [if_pos ht, if_neg hmb, if_neg h99]
  rw [hstep]
  exact ⟨(keyTail_st_fields _ _ _ _ _ _).2.2.2.2,
    (keyTail_st_fields _ _ _ _ _ _).2.2.2.1⟩

/-- Witness for C9: a muted connected mouse event sends only a mouse
report; a plain toggle release un-mutes; a plain key press updates the
state per the formulas. -/
theorem C9_mute_gate_witness :
    initState.onFlag = false ∧
    (⟨mouseRep 0 5 0 0, true⟩ : Send).bytes.getD 1 0 ≠ 2 ∧
    (stepEvent [] (connectReset initState) [] ⟨1, 99, 0⟩).st.onFlag =
      ! (connectReset initState).onFlag ∧
    (stepEvent [] (connectReset initState) [] ⟨1, 30, 1⟩).st.pressedkey =
      pkUpd 1 (charsAt (keyU 30) (layerOf (mkAfter 0 (pressedmodOf 30)
        1))).2 (connectReset initState).pressedkey :=
  ⟨C9_mute_gate.1,
   C9_mute_gate.2.1 [] (connectReset initState) [] ⟨2, 0, 5⟩ rfl
     (by decide) (by decide) ⟨mouseRep 0 5 0 0, true⟩ (by decide),
   C9_mute_gate.2.2.1 [] (connectReset initState) [] (by decide)
     (by decide),
   (C9_mute_gate.2.2.2 [] (connectReset initState) [] ⟨1, 30, 1⟩ rfl
     (by decide) (by decide)).1⟩

/-- C10: MouseReports are attempted whenever connected regardless of
the mute toggle: the relative-axis branch hands its report to `send`
for every state with `connectionok` set — the outgoing list does not
depend on `on` — and a mouse-button event likewise sends its
MouseReport first; only the trailing KeyboardReport of the fall-through
is gated by `on`. -/
theorem C10_mouse_unmuted :
    (∀ pass (s : PState) sr (v : Int) code,
      (code = 0 ∨ code = 1 ∨ code = 2 ∨ code = 8) →
      s.connectionok = true →
      (stepEvent pass s sr ⟨2, code, v⟩).outs =
        [⟨mouseRep (s.mousebuttons &&& 0x07) (if code = 0 then v else 0)
          (if code = 1 then v else 0) (if 2 ≤ code then v else 0),
          (takeSend sr).1⟩]) ∧
    (∀ pass (s : PState) sr (v : Int) code,
      (code = 272 ∨ code = 273 ∨ code = 274) →
      s.connectionok = true →
      ((stepEvent pass s sr ⟨1, code, v⟩).outs.map Send.bytes).head? =
        some (mouseRep (mbAfter s.mousebuttons code v &&& 0x07) 0 0 0)) := by
  constructor
  · intro pass s sr v code hcd hc
    rw [stepEvent_rel pass s sr v code hcd hc]
  · intro pass s sr v code hcd hc
    rw [stepEvent_btn pass s sr v code hcd hc]
    by_cases htk : (takeSend sr).1 = true
    · rw [if_pos htk]
      rfl
    · rw [if_neg htk]
      rfl

/-- Witness for C10: a muted connected state still attempts the mouse
sends. -/
theorem C10_mouse_unmuted_witness :
    (stepEvent [] (connectReset initState) [] ⟨2, 8, 3⟩).outs =
      [⟨mouseRep 0 0 0 3, true⟩] ∧
    ((stepEvent [] (connectReset initState) [] ⟨1, 273, 1⟩).outs.map
      Send.bytes).head? = some (mouseRep 2 0 0 0) := by
  have h1 := C10_mouse_unmuted.1 [] (connectReset initState) [] 3 8
    (by norm_num) rfl
  have h2 := C10_mouse_unmuted.2 [] (connectReset initState) [] 1 273
    (by norm_num) rfl
  constructor
  · rw [h1]
    decide
  · rw [h2]
    decide

end Hidclient
